import Mathlib

/-!
The crypt-tool program: a shallow embedding of `main.c`.

The program reads passphrases from the terminal (or from standard input),
hands each one to `crypt_gensalt_rn` / `crypt_rn` and prints the hash.  This
file embeds `main.c` as pure functions over an explicit program state and
proves properties of its cleanup protocol, of the read loop, of the validation
step and of what reaches standard output.

Conventions.

* Everything the program cannot decide itself (results of `isatty`, `open`,
  `mmap`, `read`, `strtoul`, the hash provider) is an input, collected in
  `Env`.
* Constants that come from system headers (`crypt.h`, `termios.h`) are fields
  of `Headers`.
* Every library call with an observable effect appends an `Event` to the trace
  kept in the state, in program order.
* A buffer pointer keeps its value after `munmap`; the state records separately
  whether the mapping behind it still exists, and `explicit_bzero` on a mapping
  that is gone faults.
* The stream opened on the terminal carries its file descriptor, so that what
  reaches file descriptor 1 can be read off the trace.
* A byte is a natural number; the environment supplies values below 256.
* The loop `while (looping)` is bounded by a pass count; `main_returns` shows
  the bound is never reached.
-/

namespace CryptTool

/-! ## Header constants -/

/-- Constants and layout facts taken from `crypt.h` and `termios.h`, which are
system headers and not part of the repository. -/
structure Headers where
  /-- The `ECHO` bit mask of `c_lflag`. -/
  ECHO : Nat
  CRYPT_OUTPUT_SIZE : Nat
  CRYPT_MAX_PASSPHRASE_SIZE : Nat
  CRYPT_GENSALT_OUTPUT_SIZE : Nat
  /-- The value of `sizeof(struct crypt_data)`. -/
  sizeof_crypt_data : Nat
  /-- The value of `offsetof(struct crypt_data, output)`. -/
  offsetof_output : Nat
  /-- The value of `offsetof(struct crypt_data, setting)`. -/
  offsetof_setting : Nat
  /-- The value of `offsetof(struct crypt_data, input)`. -/
  offsetof_input : Nat
  deriving DecidableEq, Repr

/-- The values of libxcrypt 4.x on Linux. -/
def libxcrypt : Headers :=
  { ECHO := 8
    CRYPT_OUTPUT_SIZE := 384
    CRYPT_MAX_PASSPHRASE_SIZE := 512
    CRYPT_GENSALT_OUTPUT_SIZE := 192
    sizeof_crypt_data := 32768
    offsetof_output := 0
    offsetof_setting := 384
    offsetof_input := 768 }

/-- A scaled-down header set with the same shape (output, setting, input,
scratch), small enough to evaluate runs by hand. -/
def tiny : Headers :=
  { ECHO := 8
    CRYPT_OUTPUT_SIZE := 3
    CRYPT_MAX_PASSPHRASE_SIZE := 4
    CRYPT_GENSALT_OUTPUT_SIZE := 2
    sizeof_crypt_data := 12
    offsetof_output := 0
    offsetof_setting := 3
    offsetof_input := 6 }

/-! ## Data model -/

/-- The `struct termios`; flag words are `tcflag_t` (32-bit unsigned). -/
structure Termios where
  c_iflag : Nat
  c_oflag : Nat
  c_cflag : Nat
  c_lflag : Nat
  c_line : Nat
  c_cc : List Nat
  c_ispeed : Nat
  c_ospeed : Nat
  deriving DecidableEq, Repr

/-- The all-zero `struct termios` (static storage, and the result of `bzero`). -/
def Termios.zero : Termios :=
  { c_iflag := 0, c_oflag := 0, c_cflag := 0, c_lflag := 0, c_line := 0,
    c_cc := [], c_ispeed := 0, c_ospeed := 0 }

/-- A pointer value as the program can hold one: `NULL`, `MAP_FAILED`
(`(void *) -1`, what `mmap` returns on failure) or the address of a live
mapping. -/
inductive Ptr where
  | null
  | map_failed
  | mapped (addr : Nat)
  deriving DecidableEq, Repr

/-- The stdio streams the program uses. -/
inductive Stream where
  /-- The stream `stdout`, on file descriptor 1. -/
  | stdout
  /-- The stream `stderr`, on file descriptor 2. -/
  | stderr
  /-- The stream `fdopen(fd, "r+")` returns for the terminal descriptor `fd`. -/
  | tty (fd : Int)
  deriving DecidableEq, Repr

/-- Observable actions, in program order. -/
inductive Event where
  | tcsetattr (fd : Int) (cfg : Termios)
  /-- The raw `write(fd, bytes, n)`. -/
  | write (fd : Int) (bytes : List Nat)
  | fputs (bytes : List Nat) (f : Stream)
  | fflush (f : Stream)
  | fclose (f : Stream)
  | perror (msg : String)
  /-- A call of `fprintf(f, fmt, args...)` with integer arguments. -/
  | fprintf (f : Stream) (fmt : String) (args : List Nat)
  | explicit_bzero (p : Ptr) (len : Nat)
  | munmap (p : Ptr) (len : Nat)
  /-- Ghost observation: READ-INPUT begins (line 201); carries the content of
  the whole `crypt_data` region at that moment. -/
  | read_input (storage : List Nat)
  | crypt_gensalt_rn (pfx : Option String) (count : Nat)
  | crypt_rn (phrase : List Nat) (setting : List Nat)
  | kill (pid : Nat) (sig : Nat)
  | close_entropy
  deriving DecidableEq, Repr

/-- The globals of `main.c` together with the part of the outside world the
program acts on. -/
structure State where
  old_config : Termios
  use_tty : Bool
  tty_fd : Int
  need_flush : Bool
  storage_ptr : Ptr
  entropy_ptr : Ptr
  storage_len : Nat
  entropy_len : Nat
  /-- World: the current mode of the terminal. -/
  term_mode : Termios
  /-- World: whether file descriptor 0 is a terminal. -/
  stdin_is_tty : Bool
  /-- World: content of the mapping behind `storage_ptr` (meaningful while
  `storage_ptr` is a live mapping). -/
  storage_mem : List Nat
  /-- World: content of the mapping behind `entropy_ptr` (meaningful while
  `entropy_ptr` is a live mapping). -/
  entropy_mem : List Nat
  /-- World: the mapping behind `storage_ptr` exists: `mmap` created it and no
  `munmap` has ended it.  The pointer variable keeps its value after `munmap`. -/
  storage_live : Bool
  /-- World: the mapping behind `entropy_ptr` exists. -/
  entropy_live : Bool
  /-- World: the process id, as `getpid` returns it. -/
  pid : Nat
  trace : List Event
  deriving DecidableEq, Repr

/-- Append an event to the trace. -/
def State.emit (s : State) (e : Event) : State :=
  { s with trace := s.trace ++ [e] }

/-- Result of a step that may touch an invalid address. -/
inductive Res where
  | ok (s : State)
  /-- The step dereferenced an invalid address (SIGSEGV). -/
  | segv (s : State)
  deriving DecidableEq, Repr

/-! ## Terminal controller -/

/-- The C expression `~x` on a 32-bit word. -/
def not32 (x : Nat) : Nat := (2 ^ 32 - 1) ^^^ (x % 2 ^ 32)

/-- The call `tcsetattr(fd, TCSAFLUSH, cfg)`: on a terminal the mode becomes
`cfg`; on descriptor 0 that is not a terminal the call fails (ENOTTY) and
changes nothing. -/
def tcsetattr (fd : Int) (cfg : Termios) (s : State) : State :=
  { s with
    term_mode := if fd = 0 ∧ s.stdin_is_tty = false then s.term_mode else cfg
    trace := s.trace ++ [Event.tcsetattr fd cfg] }

/-- The mode `force_tty_echo_off` builds: a copy of the snapshot with
`c_lflag &= ~ECHO`. -/
def echo_off_config (H : Headers) (old : Termios) : Termios :=
  { old with c_lflag := old.c_lflag &&& not32 H.ECHO }

/-- The function `force_tty_echo_off` (lines 54-59). -/
def force_tty_echo_off (H : Headers) (s : State) : State :=
  tcsetattr s.tty_fd (echo_off_config H s.old_config) s

/-- The function `restore_tty` (lines 61-67). -/
def restore_tty (s : State) : State :=
  let s1 := tcsetattr s.tty_fd s.old_config s
  if s1.need_flush then s1.emit (Event.write 1 [10]) else s1

/-! ## Secure memory region -/

/-- The effect of `explicit_bzero(p, len)` on the bytes behind `p`. -/
def zero_fill (mem : List Nat) (len : Nat) : List Nat :=
  List.replicate (min len mem.length) 0 ++ mem.drop len

/-- Whether `explicit_bzero(p, len)` can touch the bytes behind `p`: `p` is the
address of a mapping that still exists.  On `MAP_FAILED`, and on the address of
a mapping that `munmap` has ended, the call faults.  (For `NULL` the program
never makes the call.) -/
def Ptr.usable (p : Ptr) (live : Bool) : Bool :=
  match p with
  | Ptr.null => true
  | Ptr.map_failed => false
  | Ptr.mapped _ => live

/-- The function `clear_sensitive_memory` (lines 69-77). -/
def clear_sensitive_memory (s : State) : Res :=
  let r1 : Res :=
    match s.entropy_ptr with
    | Ptr.null => Res.ok s
    | Ptr.map_failed =>
        Res.segv (s.emit (Event.explicit_bzero s.entropy_ptr s.entropy_len))
    | Ptr.mapped _ =>
        if s.entropy_live then
          Res.ok { s with
            entropy_mem := zero_fill s.entropy_mem s.entropy_len
            trace := s.trace ++ [Event.explicit_bzero s.entropy_ptr s.entropy_len] }
        else Res.segv (s.emit (Event.explicit_bzero s.entropy_ptr s.entropy_len))
  match r1 with
  | Res.segv s1 => Res.segv s1
  | Res.ok s1 =>
    match s1.storage_ptr with
    | Ptr.null => Res.ok s1
    | Ptr.map_failed =>
        Res.segv (s1.emit (Event.explicit_bzero s1.storage_ptr s1.storage_len))
    | Ptr.mapped _ =>
        if s1.storage_live then
          Res.ok { s1 with
            storage_mem := zero_fill s1.storage_mem s1.storage_len
            trace := s1.trace ++ [Event.explicit_bzero s1.storage_ptr s1.storage_len] }
        else Res.segv (s1.emit (Event.explicit_bzero s1.storage_ptr s1.storage_len))

/-- The function `free_sensitive_memory` (lines 79-89); `munmap` ends the
mapping, the pointer variable is left as it is. -/
def free_sensitive_memory (s : State) : Res :=
  let r1 : Res :=
    match s.entropy_ptr with
    | Ptr.null => Res.ok s
    | Ptr.map_failed =>
        Res.segv (s.emit (Event.explicit_bzero s.entropy_ptr s.entropy_len))
    | Ptr.mapped _ =>
        if s.entropy_live then
          Res.ok { s with
            entropy_mem := zero_fill s.entropy_mem s.entropy_len
            entropy_live := false
            trace := s.trace ++ [Event.explicit_bzero s.entropy_ptr s.entropy_len,
                                 Event.munmap s.entropy_ptr s.entropy_len] }
        else Res.segv (s.emit (Event.explicit_bzero s.entropy_ptr s.entropy_len))
  match r1 with
  | Res.segv s1 => Res.segv s1
  | Res.ok s1 =>
    match s1.storage_ptr with
    | Ptr.null => Res.ok s1
    | Ptr.map_failed =>
        Res.segv (s1.emit (Event.explicit_bzero s1.storage_ptr s1.storage_len))
    | Ptr.mapped _ =>
        if s1.storage_live then
          Res.ok { s1 with
            storage_mem := zero_fill s1.storage_mem s1.storage_len
            storage_live := false
            trace := s1.trace ++ [Event.explicit_bzero s1.storage_ptr s1.storage_len,
                                 Event.munmap s1.storage_ptr s1.storage_len] }
        else Res.segv (s1.emit (Event.explicit_bzero s1.storage_ptr s1.storage_len))

/-! ## Signal handler -/

/-- The function `on_signal` (lines 91-96). -/
def on_signal (sig : Nat) (s : State) : Res :=
  match free_sensitive_memory (restore_tty s) with
  | Res.segv s1 => Res.segv s1
  | Res.ok s1 => Res.ok (s1.emit (Event.kill s1.pid sig))

/-! ## Environment -/

/-- Result of one `read(fd, buf, 1)` on the input. -/
inductive ReadRes where
  /-- The call returned `-1`. -/
  | err
  /-- The call returned `0`. -/
  | eof
  /-- The call returned `1` and stored `b`. -/
  | byte (b : Nat)
  deriving DecidableEq, Repr

/-- Everything the program obtains from outside. -/
structure Env where
  /-- Result of `isatty(0)`. -/
  isatty : Bool
  /-- Result of `open("/dev/tty", ...)`; `none` is `-1`. -/
  open_tty : Option Int
  /-- Whether `fdopen(tty_fd, "r+")` returns a stream. -/
  fdopen_ok : Bool
  /-- Whether `tcgetattr` returns `0`. -/
  tcgetattr_ok : Bool
  /-- The mode of the terminal when the program starts. -/
  term0 : Termios
  /-- Result of `open("/dev/urandom", ...)`; `none` is `-1`. -/
  open_urandom : Option Int
  /-- Result of the first `mmap`: the address, or `none` when it fails (the
  call then returns `MAP_FAILED`). -/
  mmap_storage : Option Nat
  /-- Result of the second `mmap`. -/
  mmap_entropy : Option Nat
  /-- Result of `read(entropy_fd, ...)` in iteration `i`; `none` is `-1`. -/
  urandom : Nat → Option (List Nat)
  /-- Results of the successive one-byte reads of the input; once the list is
  used up every further read returns `0`. -/
  input : List ReadRes
  /-- The libc `strtoul(s, &endptr, 10)`: the value and the text at `endptr`. -/
  strtoul : String → Nat × String
  /-- The provider's `crypt_gensalt_rn`, given prefix, count, the iteration
  (it draws its own randomness) and the content of the `crypt_data` region:
  the string behind the returned pointer (`none` is `NULL`) and the new
  content of the region. -/
  crypt_gensalt_rn : Option String → Nat → Nat → List Nat → Option (List Nat) × List Nat
  /-- The provider's `crypt_rn`, given phrase, setting and the content of the
  `crypt_data` region: the string behind the returned pointer (`none` is
  `NULL`) and the new content of the region. -/
  crypt_rn : List Nat → List Nat → List Nat → Option (List Nat) × List Nat
  /-- Result of `getpid()`. -/
  pid : Nat

/-- How a run ends. -/
inductive Outcome where
  | exit (code : Nat)
  /-- Killed by SIGSEGV after touching an invalid address. -/
  | segv
  deriving DecidableEq, Repr

/-- A finished run: how it ended and the last state. -/
structure Run where
  outcome : Outcome
  final : State
  deriving DecidableEq, Repr

/-! ## Helpers for memory and strings -/

/-- The bytes of an ASCII string. -/
def bytes (s : String) : List Nat := s.toList.map Char.toNat

/-- The C string that starts at the head of `mem`. -/
def cstr (mem : List Nat) : List Nat := mem.takeWhile (fun b => b != 0)

/-- Replace the head of `mem` by `new`, keeping the length of `mem`. -/
def overwrite (mem new : List Nat) : List Nat :=
  new.take mem.length ++ mem.drop new.length

/-- The comparison `strcmp(a, b) == 0`; `none` when `a` is `NULL` (the call
dereferences it). -/
def strcmp_eq (a : Option String) (b : String) : Option Bool :=
  match a with
  | none => none
  | some x => some (x == b)

/-- The text of `USAGE` (lines 17-42). -/
def USAGE : String :=
  "Hashes one or more passwords from the terminal or stdin.\n" ++
  "Usage: crypt [<prefix> [<rounds>]]\n" ++
  "\n" ++
  "Example command line session:\n" ++
  "\n" ++
  "\t$ crypt '$2b' 12\n" ++
  "\tPassword: <password is typed, followed by Enter>\n" ++
  "\tHash: $2b$12$Z0vgnP2jil4YioUAGsDwa.nIkRS.we6hBNHyy4WutXlPT3V5D/ktO\n" ++
  "\tPassword: <Enter is pressed immediately>\n" ++
  "\t<program exits>\n" ++
  "\t$ \n" ++
  "\n" ++
  "<prefix> is a string, such as \"$2b$\", that selects an algorithm for\n" ++
  "the generated password hashes.  See crypt(5) for a list of supported\n" ++
  "algorithms.  If not specified, NULL is provided, which the manpage for\n" ++
  "crypt_gensalt(3) says is supposed to select \"the best available hashing\n" ++
  "method\", whatever that means.\n" ++
  "\n" ++
  "<rounds> is the number of \"rounds\" of hashing to apply.  Only some\n" ++
  "algorithms use this value, and the meaning depends on which algorithm is\n" ++
  "selected.  If not specified, 0 is provided, which tells the selected\n" ++
  "algorithm to use its best judgement.\n" ++
  "\n" ++
  "The input behavior depends on whether or not stdin is a terminal.\n" ++
  "\n"

/-! ## Session loop -/

/-- What the inner `while` (lines 203-226) leaves behind. -/
structure ReadOut where
  /-- A `read` returned `-1`. -/
  failed : Bool
  password_len : Nat
  /-- The input not yet consumed. -/
  rest : List ReadRes
  s : State
  deriving DecidableEq, Repr

/-- The inner `while` loop (lines 203-226), started with `password_len = len`;
`max` is `max_password_len`.  The loop is described for a passphrase buffer
that can be written: in a session it runs only after `clear_sensitive_memory`
has gone over the region. -/
def read_loop (H : Headers) (max : Nat) : List ReadRes → Nat → State → ReadOut
  | [], len, s => ReadOut.mk false len [] s
  | ReadRes.err :: rest, len, s =>
      if len < max then ReadOut.mk true len rest s
      else ReadOut.mk false len (ReadRes.err :: rest) s
  | ReadRes.eof :: rest, len, s =>
      if len < max then ReadOut.mk false len rest s
      else ReadOut.mk false len (ReadRes.eof :: rest) s
  | ReadRes.byte b :: rest, len, s =>
      if len < max then
        let s1 : State :=
          { s with
            storage_mem := s.storage_mem.set (H.offsetof_input + len) b
            need_flush := true }
        if b = 10 then
          ReadOut.mk false len rest
            { s1 with storage_mem := s1.storage_mem.set (H.offsetof_input + len) 0 }
        else read_loop H max rest (len + 1) s1
      else ReadOut.mk false len (ReadRes.byte b :: rest) s

/-- How one pass through the body of `while (looping)` ends. -/
inductive Step where
  /-- The body reached its end or a `continue`. -/
  | continue_ (s : State) (rest : List ReadRes)
  /-- The body executed `break` (line 233). -/
  | break_ (s : State) (rest : List ReadRes)
  /-- The body called `exit(code)`. -/
  | exit (code : Nat) (s : State)
  | segv (s : State)
  deriving DecidableEq, Repr

/-- Run `free_sensitive_memory(); exit(1);`. -/
def free_and_exit (s : State) : Step :=
  match free_sensitive_memory s with
  | Res.segv s1 => Step.segv s1
  | Res.ok s1 => Step.exit 1 s1

/-- The passphrase as VALIDATE sees it: `password[0 .. password_len)`. -/
def passphrase (H : Headers) (s : State) (password_len : Nat) : List Nat :=
  (s.storage_mem.drop H.offsetof_input).take password_len

/-- The VALIDATE loop (lines 236-244): the first control character, if any. -/
def first_control (p : List Nat) : Option Nat := p.find? (fun ch => decide (ch < 0x20))

/-- The provider leaves `mem` as the content of the `crypt_data` region (the
mapping keeps its size). -/
def State.store (s : State) (mem : List Nat) : State :=
  { s with storage_mem := overwrite s.storage_mem mem }

/-- The assignment `((char *) storage_ptr)[i] = b`. -/
def State.poke (s : State) (i b : Nat) : State :=
  { s with storage_mem := s.storage_mem.set i b }

/-- HASH and EMIT (lines 250-274). -/
def hash_and_emit (H : Headers) (env : Env) (pfx : Option String) (count : Nat)
    (iter : Nat) (rest : List ReadRes) (s : State) : Step :=
  let g := env.crypt_gensalt_rn pfx count iter s.storage_mem
  let s1 := (s.emit (Event.crypt_gensalt_rn pfx count)).store g.2
  match g.1 with
  | none =>
      let s2 := (s1.emit (Event.perror "crypt_gensalt_rn")).poke
        (H.offsetof_setting + (H.CRYPT_OUTPUT_SIZE - 1)) 0
      let text := cstr (s2.storage_mem.drop H.offsetof_setting)
      free_and_exit
        ((s2.emit (Event.fputs text Stream.stderr)).emit (Event.fputs [10] Stream.stderr))
  | some salt =>
      let phrase := cstr (s1.storage_mem.drop H.offsetof_input)
      let c := env.crypt_rn phrase salt s1.storage_mem
      let s2 := (s1.emit (Event.crypt_rn phrase salt)).store c.2
      match c.1 with
      | none =>
          let s3 := (s2.emit (Event.perror "crypt_rn")).poke
            (H.offsetof_output + (H.CRYPT_OUTPUT_SIZE - 1)) 0
          let text := cstr (s3.storage_mem.drop H.offsetof_output)
          free_and_exit
            ((s3.emit (Event.fputs text Stream.stderr)).emit (Event.fputs [10] Stream.stderr))
      | some hash =>
          Step.continue_
            ((((s2.emit (Event.fputs (bytes "Hash: ") Stream.stdout)).emit
              (Event.fputs hash Stream.stdout)).emit
              (Event.fputs [10] Stream.stdout)).emit (Event.fflush Stream.stdout))
            rest

/-- VALIDATE, HASH and EMIT (lines 236-274) for a passphrase of length
`password_len > 0`. -/
def validate_and_hash (H : Headers) (env : Env) (pfx : Option String) (count : Nat)
    (iter : Nat) (password_len : Nat) (rest : List ReadRes) (s : State) : Step :=
  match first_control (passphrase H s password_len) with
  | some ch =>
      Step.continue_
        (s.emit (Event.fprintf Stream.stderr
          "error: control character 0x%02x in password\n" [ch]))
        rest
  | none => hash_and_emit H env pfx count iter rest s

/-- PROMPT (lines 195-199). -/
def prompt (H : Headers) (tty_file : Stream) (s : State) : State :=
  if s.use_tty then
    force_tty_echo_off H
      ((s.emit (Event.fputs (bytes "Password: ") tty_file)).emit (Event.fflush tty_file))
  else s

/-- How REFILL-ENTROPY and PROMPT end. -/
inductive Refill where
  /-- The pass ended here (`exit(1)` or a fault). -/
  | stop (st : Step)
  /-- Control reaches READ-INPUT in state `s`. -/
  | go (s : State)
  deriving DecidableEq, Repr

/-- REFILL-ENTROPY and PROMPT (lines 186-199). -/
def refill_and_prompt (H : Headers) (env : Env) (tty_file : Stream) (iter : Nat)
    (s : State) : Refill :=
  match clear_sensitive_memory s with
  | Res.segv s1 => Refill.stop (Step.segv s1)
  | Res.ok s1 =>
    match env.urandom iter with
    | none => Refill.stop (free_and_exit (s1.emit (Event.perror "read /dev/urandom")))
    | some rnd =>
      Refill.go
        (prompt H tty_file
          { s1 with entropy_mem := overwrite s1.entropy_mem (rnd.take s1.entropy_len) })

/-- READ-INPUT (lines 201-226), entered in state `s`. -/
def read_input (H : Headers) (inp : List ReadRes) (s : State) : ReadOut :=
  read_loop H (H.CRYPT_MAX_PASSPHRASE_SIZE - 1) inp 0
    (s.emit (Event.read_input s.storage_mem))

/-- The state after line 230: echo restored in interactive mode. -/
def echo_restored (s : State) : State :=
  if s.use_tty then restore_tty s else s

/-- What follows READ-INPUT: the exit on a failed `read` (lines 206-211) and
lines 228-274. -/
def after_read (H : Headers) (env : Env) (pfx : Option String) (count : Nat)
    (iter : Nat) (r : ReadOut) : Step :=
  if r.failed then
    free_and_exit (restore_tty (r.s.emit (Event.perror "read /dev/tty")))
  else if r.password_len = 0 then Step.break_ (echo_restored r.s) r.rest
  else validate_and_hash H env pfx count iter r.password_len r.rest (echo_restored r.s)

/-- One pass through the body of `while (looping)` (lines 186-274). -/
def iteration (H : Headers) (env : Env) (pfx : Option String) (count : Nat)
    (tty_file : Stream) (iter : Nat) (inp : List ReadRes) (s : State) : Step :=
  match refill_and_prompt H env tty_file iter s with
  | Refill.stop st => st
  | Refill.go s3 => after_read H env pfx count iter (read_input H inp s3)

/-- The code after the loop (lines 277-284). -/
def finish (tty_file : Stream) (s : State) : Run :=
  let s1 := if s.use_tty then s.emit (Event.fclose tty_file) else s
  match free_sensitive_memory s1 with
  | Res.segv s2 => Run.mk Outcome.segv s2
  | Res.ok s2 => Run.mk (Outcome.exit 0) (s2.emit Event.close_entropy)

/-- The loop `while (looping)` followed by the code after it; `fuel` bounds the
number of passes and `none` means the bound was reached. -/
def session (H : Headers) (env : Env) (pfx : Option String) (count : Nat)
    (tty_file : Stream) : Nat → Nat → List ReadRes → State → Option Run
  | 0, _, _, _ => none
  | fuel + 1, iter, inp, s =>
    match iteration H env pfx count tty_file iter inp s with
    | Step.segv s1 => some (Run.mk Outcome.segv s1)
    | Step.exit code s1 => some (Run.mk (Outcome.exit code) s1)
    | Step.break_ s1 _ => some (finish tty_file s1)
    | Step.continue_ s1 rest => session H env pfx count tty_file fuel (iter + 1) rest s1

/-! ## Startup -/

/-- The globals as the loader initialises them (lines 44-52), in the world
given by `env`. -/
def initial (env : Env) : State :=
  { old_config := Termios.zero
    use_tty := false
    tty_fd := 0
    need_flush := false
    storage_ptr := Ptr.null
    entropy_ptr := Ptr.null
    storage_len := 0
    entropy_len := 0
    term_mode := env.term0
    stdin_is_tty := env.isatty
    storage_mem := []
    entropy_mem := []
    storage_live := false
    entropy_live := false
    pid := env.pid
    trace := [] }

/-- The pointer `mmap` returns. -/
def mmap_result (r : Option Nat) : Ptr :=
  match r with
  | some a => Ptr.mapped a
  | none => Ptr.map_failed

/-- What argument handling (lines 99-125) produces. -/
inductive Args where
  /-- Arguments accepted: the prefix and the count. -/
  | run (pfx : Option String) (count : Nat)
  /-- The process ended during argument handling. -/
  | done (o : Outcome) (s : State)
  deriving DecidableEq, Repr

/-- Argument handling (lines 99-125). -/
def parse_args (H : Headers) (env : Env) (argv : List String) (s : State) : Args :=
  if H.CRYPT_GENSALT_OUTPUT_SIZE > H.CRYPT_OUTPUT_SIZE then
    Args.done (Outcome.exit 1)
      (s.emit (Event.fprintf Stream.stderr
        "fatal: CRYPT_GENSALT_OUTPUT_SIZE=%zd > CRYPT_OUTPUT_SIZE=%zd"
        [H.CRYPT_GENSALT_OUTPUT_SIZE, H.CRYPT_OUTPUT_SIZE]))
  else
    let pfx : Option String :=
      match argv.get? 1 with
      | some a => if a ≠ "" then some a else none
      | none => none
    match strcmp_eq pfx "-h" with
    | none => Args.done Outcome.segv s
    | some true => Args.done (Outcome.exit 0) (s.emit (Event.fputs (bytes USAGE) Stream.stdout))
    | some false =>
      match strcmp_eq pfx "--help" with
      | none => Args.done Outcome.segv s
      | some true =>
          Args.done (Outcome.exit 0) (s.emit (Event.fputs (bytes USAGE) Stream.stdout))
      | some false =>
        match argv.get? 2 with
        | none => Args.run pfx 0
        | some a =>
          if a ≠ "" then
            let r := env.strtoul a
            if r.2 ≠ "" then Args.done (Outcome.exit 1) (s.emit (Event.perror "strtoul"))
            else Args.run pfx r.1
          else Args.run pfx 0

/-- What terminal setup (lines 127-157) produces. -/
inductive Setup where
  | ready (tty_file : Stream) (s : State)
  | failed (s : State)
  deriving DecidableEq, Repr

/-- Terminal setup (lines 127-157). -/
def setup_tty (env : Env) (s : State) : Setup :=
  if env.isatty then
    match env.open_tty with
    | none => Setup.failed ({ s with tty_fd := -1 }.emit (Event.perror "open /dev/tty"))
    | some fd =>
      let s1 : State := { s with tty_fd := fd }
      if env.fdopen_ok then
        let s2 : State := { s1 with old_config := Termios.zero }
        if env.tcgetattr_ok then
          Setup.ready (Stream.tty fd) { s2 with old_config := s2.term_mode, use_tty := true }
        else Setup.failed (s2.emit (Event.perror "tcgetattr"))
      else Setup.failed (s1.emit (Event.perror "fdopen tty_fd"))
  else Setup.ready Stream.stdout s

/-- What buffer acquisition (lines 159-182) produces. -/
inductive Acquire where
  | ready (s : State)
  | failed (s : State)
  deriving DecidableEq, Repr

/-- Buffer acquisition (lines 159-182). -/
def acquire (H : Headers) (env : Env) (s : State) : Acquire :=
  match env.open_urandom with
  | none => Acquire.failed (s.emit (Event.perror "open /dev/urandom"))
  | some _ =>
    let s1 : State :=
      { s with
        storage_len := H.sizeof_crypt_data
        storage_ptr := mmap_result env.mmap_storage
        storage_mem := List.replicate H.sizeof_crypt_data 0
        storage_live := env.mmap_storage.isSome }
    if s1.storage_ptr = Ptr.null then Acquire.failed (s1.emit (Event.perror "mmap"))
    else
      let s2 : State :=
        { s1 with
          entropy_len := 1024
          entropy_ptr := mmap_result env.mmap_entropy
          entropy_mem := List.replicate 1024 0
          entropy_live := env.mmap_entropy.isSome }
      if s2.storage_ptr = Ptr.null then Acquire.failed (s2.emit (Event.perror "mmap"))
      else Acquire.ready s2

/-- The function `main` (lines 98-285); `none` only if the pass bound of
`session` were reached. -/
def main (H : Headers) (env : Env) (argv : List String) : Option Run :=
  match parse_args H env argv (initial env) with
  | Args.done o s => some (Run.mk o s)
  | Args.run pfx count =>
    match setup_tty env (initial env) with
    | Setup.failed s => some (Run.mk (Outcome.exit 1) s)
    | Setup.ready tty_file s =>
      match acquire H env s with
      | Acquire.failed s1 => some (Run.mk (Outcome.exit 1) s1)
      | Acquire.ready s1 =>
          session H env pfx count tty_file (env.input.length + 1) 0 env.input s1


/-! ## Vocabulary for the statements -/

/-- The descriptor `tty_fd` refers to a terminal, so `tcsetattr` takes effect. -/
def State.on_terminal (s : State) : Prop :=
  ¬ (s.tty_fd = 0 ∧ s.stdin_is_tty = false)

instance (s : State) : Decidable s.on_terminal := by
  unfold State.on_terminal; infer_instance

/-- Scrub-then-release of one buffer, as it shows in the trace; nothing for a
`NULL` pointer. -/
def release_events (p : Ptr) (len : Nat) : List Event :=
  match p with
  | Ptr.null => []
  | _ => [Event.explicit_bzero p len, Event.munmap p len]

/-- All bytes of a region are zero. -/
def all_zero (mem : List Nat) : Prop := ∀ b ∈ mem, b = 0

instance (mem : List Nat) : Decidable (all_zero mem) := by
  unfold all_zero; infer_instance

/-- A state in the middle of typing a passphrase: interactive, echo off, two
bytes already stored (tiny layout). -/
def typing_state : State :=
  { old_config := { Termios.zero with c_lflag := 0x8a3b, c_cc := [3, 28, 127] }
    use_tty := true
    tty_fd := 3
    need_flush := true
    storage_ptr := Ptr.mapped 4096
    entropy_ptr := Ptr.mapped 8192
    storage_len := 12
    entropy_len := 1024
    term_mode := { Termios.zero with c_lflag := 0x8a33, c_cc := [3, 28, 127] }
    stdin_is_tty := true
    storage_mem := [0, 0, 0, 0, 0, 0, 104, 117, 0, 0, 0, 0]
    entropy_mem := List.replicate 1024 7
    storage_live := true
    entropy_live := true
    pid := 4242
    trace := [] }

/-- Number of bytes of `stream` before the first line terminator, or before
its end if there is none. -/
def line_length (stream : List Nat) : Nat :=
  (stream.takeWhile (fun b => b != 10)).length

/-- A state at the top of a pass with freshly mapped buffers (tiny layout),
standard input not a terminal. -/
def batch_state : State :=
  { old_config := Termios.zero
    use_tty := false
    tty_fd := 0
    need_flush := false
    storage_ptr := Ptr.mapped 4096
    entropy_ptr := Ptr.mapped 8192
    storage_len := 12
    entropy_len := 1024
    term_mode := { Termios.zero with c_lflag := 0x8a3b }
    stdin_is_tty := false
    storage_mem := List.replicate 12 0
    entropy_mem := List.replicate 1024 0
    storage_live := true
    entropy_live := true
    pid := 4242
    trace := [] }

/-- Scrub of one buffer without release, as it shows in the trace; nothing for
a `NULL` pointer. -/
def clear_events (p : Ptr) (len : Nat) : List Event :=
  match p with
  | Ptr.null => []
  | _ => [Event.explicit_bzero p len]

/-- Content of a buffer after the scrub guarded by `p != NULL`. -/
def scrubbed (p : Ptr) (mem : List Nat) (len : Nat) : List Nat :=
  match p with
  | Ptr.null => mem
  | _ => zero_fill mem len

/-- Whether the mapping still exists after the release guarded by
`p != NULL`. -/
def released (p : Ptr) (live : Bool) : Bool :=
  match p with
  | Ptr.null => live
  | _ => false

/-- The event is a call into the hash provider. -/
def Event.is_provider_call : Event → Bool
  | Event.crypt_gensalt_rn _ _ => true
  | Event.crypt_rn _ _ => true
  | _ => false

/-- The event is an `fputs` (prompts and hash lines are written with it). -/
def Event.is_fputs : Event → Bool
  | Event.fputs _ _ => true
  | _ => false

/-- What PROMPT adds to the trace. -/
def prompt_events (H : Headers) (tty_file : Stream) (s : State) : List Event :=
  if s.use_tty then
    [Event.fputs (bytes "Password: ") tty_file, Event.fflush tty_file,
     Event.tcsetattr s.tty_fd (echo_off_config H s.old_config)]
  else []

/-- What `restore_tty` adds to the trace. -/
def restore_events (s : State) : List Event :=
  Event.tcsetattr s.tty_fd s.old_config
    :: (if s.need_flush then [Event.write 1 [10]] else [])

/-- What line 228-230 adds to the trace. -/
def echo_restored_events (s : State) : List Event :=
  if s.use_tty then restore_events s else []

/-- What the code after the loop adds to the trace. -/
def finish_events (tty_file : Stream) (s : State) : List Event :=
  (if s.use_tty then [Event.fclose tty_file] else [])
    ++ release_events s.entropy_ptr s.entropy_len
    ++ release_events s.storage_ptr s.storage_len
    ++ [Event.close_entropy]

/-- A provider that always succeeds: the setting is `$`, the hash is `$`
followed by the phrase; it leaves the region as it is. -/
def demo_env (tty : Bool) (input : List ReadRes) : Env :=
  { isatty := tty
    open_tty := some 3
    fdopen_ok := true
    tcgetattr_ok := true
    term0 := { Termios.zero with c_lflag := 0x8a3b, c_cc := [3, 28, 127] }
    open_urandom := some 4
    mmap_storage := some 4096
    mmap_entropy := some 8192
    urandom := fun _ => some [7, 7]
    input := input
    strtoul := fun _ => (0, "")
    crypt_gensalt_rn := fun _ _ _ m => (some [36], m)
    crypt_rn := fun p _ m => (some (36 :: p), m)
    pid := 4242 }

/-- The state `batch_state` once REFILL-ENTROPY has run with `demo_env`. -/
def batch_ready : State :=
  { batch_state with
    entropy_mem := overwrite (zero_fill batch_state.entropy_mem 1024) [7, 7]
    trace := [Event.explicit_bzero (Ptr.mapped 8192) 1024,
              Event.explicit_bzero (Ptr.mapped 4096) 12] }

/-- The last state of a step of `Res`. -/
def Res.state : Res → State
  | Res.ok s => s
  | Res.segv s => s

/-- The last state of a pass. -/
def Step.state : Step → State
  | Step.continue_ s _ => s
  | Step.break_ s _ => s
  | Step.exit _ s => s
  | Step.segv s => s

/-- The event puts bytes on standard output (file descriptor 1). -/
def Event.writes_stdout : Event → Bool
  | Event.write fd _ => decide (fd = 1)
  | Event.fputs _ Stream.stdout => true
  | Event.fputs _ (Stream.tty fd) => decide (fd = 1)
  | Event.fprintf Stream.stdout _ _ => true
  | Event.fprintf (Stream.tty fd) _ _ => decide (fd = 1)
  | _ => false

/-- The events of a trace that put bytes on standard output, in order. -/
def stdout_events (tr : List Event) : List Event := tr.filter Event.writes_stdout

/-- EMIT of one hash (lines 271-273). -/
def hash_line (h : List Nat) : List Event :=
  [Event.fputs (bytes "Hash: ") Stream.stdout, Event.fputs h Stream.stdout,
   Event.fputs [10] Stream.stdout]

/-- A sequence of output items as events: `some h` is the hash line of `h`,
`none` is the single newline `restore_tty` writes with `write(1, "\n", 1)`. -/
def render : List (Option (List Nat)) → List Event
  | [] => []
  | some h :: t => hash_line h ++ render t
  | none :: t => Event.write 1 [10] :: render t

/-- Every hash among the items is a value `crypt_rn` returned. -/
def from_provider (env : Env) (items : List (Option (List Nat))) : Prop :=
  ∀ h, some h ∈ items → ∃ p salt m, (env.crypt_rn p salt m).1 = some h

/-- The fields no step of the session changes, and the sizes of the regions. -/
def Frame (s s1 : State) : Prop :=
  s1.old_config = s.old_config ∧ s1.use_tty = s.use_tty ∧ s1.tty_fd = s.tty_fd
  ∧ s1.storage_ptr = s.storage_ptr ∧ s1.entropy_ptr = s.entropy_ptr
  ∧ s1.storage_len = s.storage_len ∧ s1.entropy_len = s.entropy_len
  ∧ s1.stdin_is_tty = s.stdin_is_tty ∧ s1.pid = s.pid
  ∧ s1.storage_mem.length = s.storage_mem.length
  ∧ s1.entropy_mem.length = s.entropy_mem.length

/-- State `s1` continues `s`: same frame, and the trace grew by events among
which every READ-INPUT observation shows the whole region, all zero, and,
unless the terminal descriptor is 1, the output on standard output is a
sequence of hash lines and `restore_tty` newlines. -/
def Ext (env : Env) (s s1 : State) : Prop :=
  Frame s s1
  ∧ ∃ evs, s1.trace = s.trace ++ evs
      ∧ (∀ m, Event.read_input m ∈ evs → all_zero m ∧ m.length = s.storage_mem.length)
      ∧ (s.tty_fd ≠ 1 →
          ∃ items, stdout_events evs = render items ∧ from_provider env items)

/-- What holds at the top of every pass of a session started by `main`: the
prompt goes to the stream opened on `tty_fd`, and the `crypt_data` pointer is not `NULL`
with a recorded length that covers the region. -/
def Pre (tty_file : Stream) (s : State) : Prop :=
  (s.use_tty = true → tty_file = Stream.tty s.tty_fd)
  ∧ s.storage_ptr ≠ Ptr.null
  ∧ s.storage_mem.length ≤ s.storage_len

/-- Both Locked Buffers are acquired (live mappings at `a` and `b` of the sizes
`main` asks for, with the lengths `main` records), and the terminal globals are
as terminal setup leaves them when the terminal started in mode `m0`. -/
def Acquired (H : Headers) (m0 : Termios) (tty_file : Stream) (a b : Nat) (s : State) : Prop :=
  s.storage_ptr = Ptr.mapped a ∧ s.entropy_ptr = Ptr.mapped b
  ∧ s.storage_len = H.sizeof_crypt_data ∧ s.entropy_len = 1024
  ∧ s.storage_mem.length = H.sizeof_crypt_data ∧ s.entropy_mem.length = 1024
  ∧ (s.use_tty = true → tty_file = Stream.tty s.tty_fd)
  ∧ (s.use_tty = true → s.stdin_is_tty = true ∧ s.old_config = m0)
  ∧ (s.use_tty = false → s.tty_fd = 0 ∧ s.stdin_is_tty = false)

/-- The state of a process that has cleaned up: terminal in mode `m0`, both
buffers zero over their full length, both mappings ended, and the trace ends with scrub and release
of both buffers, followed at most by the close of the entropy source. -/
def Clean (H : Headers) (m0 : Termios) (a b : Nat) (s : State) : Prop :=
  s.term_mode = m0
  ∧ s.storage_mem = List.replicate H.sizeof_crypt_data 0
  ∧ s.entropy_mem = List.replicate 1024 0
  ∧ s.storage_live = false ∧ s.entropy_live = false
  ∧ ∃ pre post,
      s.trace = pre
        ++ [Event.explicit_bzero (Ptr.mapped b) 1024, Event.munmap (Ptr.mapped b) 1024,
            Event.explicit_bzero (Ptr.mapped a) H.sizeof_crypt_data,
            Event.munmap (Ptr.mapped a) H.sizeof_crypt_data]
        ++ post
      ∧ (post = [] ∨ post = [Event.close_entropy])

/-- A pass ended well: it goes on or breaks with the terminal in mode `m0` and
both mappings in place, or it exits after cleanup; it does not fault. -/
def Step.ok (H : Headers) (m0 : Termios) (a b : Nat) : Step → Prop
  | Step.continue_ s _ => s.term_mode = m0 ∧ s.storage_live = true ∧ s.entropy_live = true
  | Step.break_ s _ => s.term_mode = m0 ∧ s.storage_live = true ∧ s.entropy_live = true
  | Step.exit _ s => Clean H m0 a b s
  | Step.segv _ => False

/-! ## Facts about memory helpers -/

theorem length_zero_fill (mem : List Nat) (len : Nat) :
    (zero_fill mem len).length = mem.length := by
  unfold zero_fill
  simp only [List.length_append, List.length_replicate, List.length_drop]
  omega

theorem zero_fill_take (mem : List Nat) (len : Nat) :
    ∀ b ∈ (zero_fill mem len).take len, b = 0 := by
  intro b hb
  unfold zero_fill at hb
  rw [List.take_append_eq_append_take] at hb
  simp only [List.length_replicate, List.mem_append] at hb
  rcases hb with hb | hb
  · exact List.eq_of_mem_replicate (List.mem_of_mem_take hb)
  · have h0 : len - min len mem.length = 0 ∨ mem.length ≤ len := by omega
    rcases h0 with h0 | h0
    · rw [h0] at hb; simp at hb
    · rw [List.drop_eq_nil_of_le h0] at hb; simp at hb

theorem zero_fill_full (mem : List Nat) (len : Nat) (h : mem.length ≤ len) :
    zero_fill mem len = List.replicate mem.length 0 := by
  unfold zero_fill
  rw [List.drop_eq_nil_of_le h, Nat.min_eq_right h, List.append_nil]

theorem length_overwrite (mem new : List Nat) :
    (overwrite mem new).length = mem.length := by
  unfold overwrite
  simp only [List.length_append, List.length_take, List.length_drop]
  omega

theorem not32_testBit (x i : Nat) :
    (not32 x).testBit i = (decide (i < 32) && !x.testBit i) := by
  unfold not32
  rw [Nat.testBit_xor, Nat.testBit_two_pow_sub_one, Nat.testBit_mod_two_pow]
  by_cases h : i < 32 <;> simp [h]

/-! ## Terminal controller -/

theorem echo_off_lflag_bits (H : Headers) (S : Termios) (hS : S.c_lflag < 2 ^ 32) (i : Nat) :
    (echo_off_config H S).c_lflag.testBit i = (S.c_lflag.testBit i && !H.ECHO.testBit i) := by
  show (S.c_lflag &&& not32 H.ECHO).testBit i = _
  rw [Nat.testBit_and, not32_testBit]
  by_cases h : i < 32
  · simp [h]
  · have hi : S.c_lflag.testBit i = false := by
      apply Nat.testBit_lt_two_pow
      exact lt_of_lt_of_le hS (Nat.pow_le_pow_right (by norm_num) (by omega))
    simp [hi]

/-- C7: for every state whose snapshot `old_config` is a valid `termios` (the
local-mode word fits 32 bits), `force_tty_echo_off` issues exactly one
`tcsetattr`, with a mode that equals the snapshot in every field and in every
bit of `c_lflag` except the bits of `ECHO`, which are cleared; `restore_tty`
issues `tcsetattr` with exactly the snapshot; on a terminal, echo-off followed
by restore leaves the terminal in the snapshot mode, and repeating either
operation gives the same terminal mode as doing it once. -/
theorem echo_off_then_restore_frame (H : Headers) (s : State)
    (hS : s.old_config.c_lflag < 2 ^ 32) (hT : s.on_terminal) :
    (force_tty_echo_off H s).trace
        = s.trace ++ [Event.tcsetattr s.tty_fd (echo_off_config H s.old_config)]
    ∧ (force_tty_echo_off H s).term_mode = echo_off_config H s.old_config
    ∧ (echo_off_config H s.old_config).c_iflag = s.old_config.c_iflag
    ∧ (echo_off_config H s.old_config).c_oflag = s.old_config.c_oflag
    ∧ (echo_off_config H s.old_config).c_cflag = s.old_config.c_cflag
    ∧ (echo_off_config H s.old_config).c_line = s.old_config.c_line
    ∧ (echo_off_config H s.old_config).c_cc = s.old_config.c_cc
    ∧ (echo_off_config H s.old_config).c_ispeed = s.old_config.c_ispeed
    ∧ (echo_off_config H s.old_config).c_ospeed = s.old_config.c_ospeed
    ∧ (∀ i, (echo_off_config H s.old_config).c_lflag.testBit i
          = (s.old_config.c_lflag.testBit i && !H.ECHO.testBit i))
    ∧ (restore_tty s).trace
        = s.trace ++ Event.tcsetattr s.tty_fd s.old_config
            :: (if s.need_flush then [Event.write 1 [10]] else [])
    ∧ (restore_tty s).term_mode = s.old_config
    ∧ (restore_tty (force_tty_echo_off H s)).term_mode = s.old_config
    ∧ (force_tty_echo_off H (force_tty_echo_off H s)).term_mode
        = (force_tty_echo_off H s).term_mode
    ∧ (restore_tty (restore_tty s)).term_mode = (restore_tty s).term_mode := by
  have hT' : ¬ (s.tty_fd = 0 ∧ s.stdin_is_tty = false) := hT
  refine ⟨rfl, ?_, rfl, rfl, rfl, rfl, rfl, rfl, rfl, echo_off_lflag_bits H _ hS, ?_, ?_, ?_, ?_, ?_⟩
  · simp [force_tty_echo_off, tcsetattr, hT']
  · cases hf : s.need_flush <;> simp [restore_tty, tcsetattr, State.emit, hf]
  · cases hf : s.need_flush <;> simp [restore_tty, tcsetattr, State.emit, hf, hT']
  · cases hf : s.need_flush <;>
      simp [restore_tty, force_tty_echo_off, tcsetattr, State.emit, hf, hT']
  · simp [force_tty_echo_off, tcsetattr, hT']
  · cases hf : s.need_flush <;> simp [restore_tty, tcsetattr, State.emit, hf, hT']

/-- On `typing_state`: echo-off followed by restore leaves the snapshot mode. -/
theorem echo_off_then_restore_frame_witness :
    typing_state.old_config.c_lflag < 2 ^ 32 ∧ typing_state.on_terminal
    ∧ (restore_tty (force_tty_echo_off tiny typing_state)).term_mode
        = typing_state.old_config :=
  ⟨by decide, by decide,
    (echo_off_then_restore_frame tiny typing_state (by decide) (by decide)).2.2.2.2.2.2.2.2.2.2.2.2.1⟩

/-! ## Signal handler -/

theorem free_sensitive_memory_ok (s : State)
    (hs : s.storage_ptr.usable s.storage_live = true)
    (he : s.entropy_ptr.usable s.entropy_live = true) :
    ∃ s1, free_sensitive_memory s = Res.ok s1
      ∧ s1.trace = s.trace ++ release_events s.entropy_ptr s.entropy_len
          ++ release_events s.storage_ptr s.storage_len
      ∧ s1.storage_mem
          = (if s.storage_ptr = Ptr.null then s.storage_mem
             else zero_fill s.storage_mem s.storage_len)
      ∧ s1.entropy_mem
          = (if s.entropy_ptr = Ptr.null then s.entropy_mem
             else zero_fill s.entropy_mem s.entropy_len)
      ∧ s1.term_mode = s.term_mode ∧ s1.old_config = s.old_config
      ∧ s1.storage_ptr = s.storage_ptr ∧ s1.entropy_ptr = s.entropy_ptr
      ∧ s1.storage_len = s.storage_len ∧ s1.entropy_len = s.entropy_len
      ∧ s1.pid = s.pid
      ∧ (s.storage_ptr ≠ Ptr.null → s1.storage_live = false)
      ∧ (s.entropy_ptr ≠ Ptr.null → s1.entropy_live = false) := by
  rcases s with ⟨oc, ut, fd, nf, sp, ep, sl, el, tm, st, sm, em, slv, elv, pid, tr⟩
  cases ep <;> cases sp <;> cases slv <;> cases elv <;>
    simp [free_sensitive_memory, release_events, State.emit, Ptr.usable] at hs he ⊢

theorem restore_tty_frame (s : State) :
    (restore_tty s).trace
        = s.trace ++ Event.tcsetattr s.tty_fd s.old_config
            :: (if s.need_flush then [Event.write 1 [10]] else [])
    ∧ (restore_tty s).term_mode
        = (if s.tty_fd = 0 ∧ s.stdin_is_tty = false then s.term_mode else s.old_config)
    ∧ (restore_tty s).old_config = s.old_config
    ∧ (restore_tty s).use_tty = s.use_tty
    ∧ (restore_tty s).tty_fd = s.tty_fd
    ∧ (restore_tty s).need_flush = s.need_flush
    ∧ (restore_tty s).storage_ptr = s.storage_ptr
    ∧ (restore_tty s).entropy_ptr = s.entropy_ptr
    ∧ (restore_tty s).storage_len = s.storage_len
    ∧ (restore_tty s).entropy_len = s.entropy_len
    ∧ (restore_tty s).stdin_is_tty = s.stdin_is_tty
    ∧ (restore_tty s).storage_mem = s.storage_mem
    ∧ (restore_tty s).entropy_mem = s.entropy_mem
    ∧ (restore_tty s).pid = s.pid
    ∧ (restore_tty s).storage_live = s.storage_live
    ∧ (restore_tty s).entropy_live = s.entropy_live := by
  cases hf : s.need_flush <;> simp [restore_tty, tcsetattr, State.emit, hf]

/-- C2: in every state where each buffer pointer is `NULL` or the address of a
mapping that still exists, and `tty_fd` is the terminal (so in every state in
which a passphrase is being typed), `on_signal` returns normally and its trace
is, in this order: `tcsetattr` with the startup snapshot (followed by the
newline `restore_tty` writes when `need_flush` is set), `explicit_bzero` then
`munmap` of the entropy buffer over `entropy_len`, `explicit_bzero` then
`munmap` of the `crypt_data` buffer over `storage_len` (each pair skipped for a
`NULL` pointer), and last `kill(getpid(), sig)` with the signal received.
Afterwards the terminal mode is the snapshot, the first `storage_len` bytes of
the `crypt_data` region are zero, and both mappings have ended. -/
theorem on_signal_restores_scrubs_resignals (sig : Nat) (s : State)
    (hs : s.storage_ptr.usable s.storage_live = true)
    (he : s.entropy_ptr.usable s.entropy_live = true)
    (hT : s.on_terminal) :
    ∃ s1, on_signal sig s = Res.ok s1
      ∧ s1.trace
          = s.trace
            ++ Event.tcsetattr s.tty_fd s.old_config
                :: (if s.need_flush then [Event.write 1 [10]] else [])
            ++ release_events s.entropy_ptr s.entropy_len
            ++ release_events s.storage_ptr s.storage_len
            ++ [Event.kill s.pid sig]
      ∧ s1.term_mode = s.old_config
      ∧ (s.storage_ptr ≠ Ptr.null →
          all_zero (s1.storage_mem.take s.storage_len)
          ∧ s1.storage_mem.length = s.storage_mem.length
          ∧ s1.storage_live = false)
      ∧ (s.entropy_ptr ≠ Ptr.null →
          all_zero (s1.entropy_mem.take s.entropy_len)
          ∧ s1.entropy_mem.length = s.entropy_mem.length
          ∧ s1.entropy_live = false) := by
  have hT' : ¬ (s.tty_fd = 0 ∧ s.stdin_is_tty = false) := hT
  obtain ⟨htr, htm, hoc, -, -, -, hsp, hep, hsl, hel, -, hsm, hem, hpid, hslv, helv⟩ :=
    restore_tty_frame s
  obtain ⟨s1, h1, h1tr, h1sm, h1em, h1tm, -, -, -, -, -, h1pid, h1sl, h1el⟩ :=
    free_sensitive_memory_ok (restore_tty s) (by rw [hsp, hslv]; exact hs)
      (by rw [hep, helv]; exact he)
  refine ⟨s1.emit (Event.kill s1.pid sig), ?_, ?_, ?_, ?_, ?_⟩
  · simp [on_signal, h1]
  · simp [State.emit, h1tr, htr, hsp, hep, hsl, hel, h1pid, hpid]
  · simp [State.emit, h1tm, htm, hT']
  · intro hn
    have : s1.storage_mem = zero_fill s.storage_mem s.storage_len := by
      rw [h1sm, hsp, hsm, hsl]; simp [hn]
    simp only [State.emit, this]
    exact ⟨zero_fill_take _ _, length_zero_fill _ _, h1sl (by rw [hsp]; exact hn)⟩
  · intro hn
    have : s1.entropy_mem = zero_fill s.entropy_mem s.entropy_len := by
      rw [h1em, hep, hem, hel]; simp [hn]
    simp only [State.emit, this]
    exact ⟨zero_fill_take _ _, length_zero_fill _ _, h1el (by rw [hep]; exact hn)⟩

/-- The handler on a buffer it cannot touch: when either pointer is
`MAP_FAILED`, or the address of a mapping that `munmap` has already ended (the
state `free_sensitive_memory` leaves behind), `explicit_bzero` faults and no
signal is sent. -/
theorem on_signal_faults_without_mapping (sig : Nat) (s : State)
    (h : s.storage_ptr.usable s.storage_live = false
      ∨ s.entropy_ptr.usable s.entropy_live = false) :
    ∃ s1, on_signal sig s = Res.segv s1 := by
  rcases s with ⟨oc, ut, fd, nf, sp, ep, sl, el, tm, st, sm, em, slv, elv, pid, tr⟩
  cases nf <;> cases ep <;> cases sp <;> cases slv <;> cases elv <;>
    simp [on_signal, restore_tty, tcsetattr, free_sensitive_memory, State.emit,
      Ptr.usable] at h ⊢

/-- The handler after `main` has released the buffers: in the last state of an
interactive run that ended normally both pointers still hold their addresses
but the mappings are gone, and the handler faults in `explicit_bzero`. -/
theorem on_signal_after_release_faults :
    ∃ r s1, main tiny (demo_env true [ReadRes.byte 10]) ["crypt", "$2b$"] = some r
      ∧ r.outcome = Outcome.exit 0
      ∧ r.final.storage_ptr = Ptr.mapped 4096 ∧ r.final.storage_live = false
      ∧ on_signal 2 r.final = Res.segv s1 :=
  ⟨_, _, rfl, rfl, rfl, rfl, rfl⟩

/-- On `typing_state` with SIGINT: the seven events of the handler, in order. -/
theorem on_signal_restores_scrubs_resignals_witness :
    ∃ s1, on_signal 2 typing_state = Res.ok s1
      ∧ s1.trace
          = [Event.tcsetattr 3 typing_state.old_config, Event.write 1 [10],
             Event.explicit_bzero (Ptr.mapped 8192) 1024, Event.munmap (Ptr.mapped 8192) 1024,
             Event.explicit_bzero (Ptr.mapped 4096) 12, Event.munmap (Ptr.mapped 4096) 12,
             Event.kill 4242 2]
      ∧ s1.term_mode = typing_state.old_config := by
  obtain ⟨s1, h1, h2, h3, -⟩ :=
    on_signal_restores_scrubs_resignals 2 typing_state (by decide) (by decide) (by decide)
  exact ⟨s1, h1, by rw [h2]; decide, h3⟩

/-! ## READ-INPUT -/

/-- The part of the state that READ-INPUT leaves alone. -/
theorem read_loop_frame (H : Headers) (max : Nat) :
    ∀ (inp : List ReadRes) (len : Nat) (s : State),
      (read_loop H max inp len s).s.old_config = s.old_config
      ∧ (read_loop H max inp len s).s.use_tty = s.use_tty
      ∧ (read_loop H max inp len s).s.tty_fd = s.tty_fd
      ∧ (read_loop H max inp len s).s.storage_ptr = s.storage_ptr
      ∧ (read_loop H max inp len s).s.entropy_ptr = s.entropy_ptr
      ∧ (read_loop H max inp len s).s.storage_len = s.storage_len
      ∧ (read_loop H max inp len s).s.entropy_len = s.entropy_len
      ∧ (read_loop H max inp len s).s.term_mode = s.term_mode
      ∧ (read_loop H max inp len s).s.stdin_is_tty = s.stdin_is_tty
      ∧ (read_loop H max inp len s).s.entropy_mem = s.entropy_mem
      ∧ (read_loop H max inp len s).s.pid = s.pid
      ∧ (read_loop H max inp len s).s.trace = s.trace
      ∧ (read_loop H max inp len s).s.storage_mem.length = s.storage_mem.length
      ∧ len ≤ (read_loop H max inp len s).password_len
      ∧ (read_loop H max inp len s).rest.length
          + ((read_loop H max inp len s).password_len - len) ≤ inp.length
      ∧ (read_loop H max inp len s).s.storage_live = s.storage_live
      ∧ (read_loop H max inp len s).s.entropy_live = s.entropy_live := by
  intro inp
  induction inp with
  | nil => intro len s; simp [read_loop]
  | cons e rest ih =>
    intro len s
    cases e with
    | err => by_cases h : len < max <;> simp [read_loop, h]
    | eof => by_cases h : len < max <;> simp [read_loop, h]
    | byte b =>
      by_cases h : len < max
      · by_cases hb : b = 10
        · simp [read_loop, h, hb]
        · simp only [read_loop, h, hb, if_true, if_false]
          have := ih (len + 1)
            { s with
              storage_mem := s.storage_mem.set (H.offsetof_input + len) b
              need_flush := true }
          simp only [List.length_set, List.length_cons] at this ⊢
          obtain ⟨h1, h2, h3, h4, h5, h6, h7, h8, h9, h10, h11, h12, h13, h14, h15, h16, h17⟩ :=
            this
          refine ⟨h1, h2, h3, h4, h5, h6, h7, h8, h9, h10, h11, h12, h13, ?_, ?_, h16, h17⟩ <;>
            omega
      · simp [read_loop, h]

theorem line_length_cons_ne (b : Nat) (t : List Nat) (h : b ≠ 10) :
    line_length (b :: t) = line_length t + 1 := by
  simp [line_length, List.takeWhile_cons, h]

theorem line_length_cons_eq (t : List Nat) : line_length (10 :: t) = 0 := by
  simp [line_length, List.takeWhile_cons]

/-- READ-INPUT on an error-free byte stream, started at any `password_len`. -/
theorem read_loop_bytes (H : Headers) (max : Nat) :
    ∀ (stream : List Nat) (len : Nat) (s : State),
      len ≤ max → H.offsetof_input + max < s.storage_mem.length →
      (read_loop H max (stream.map ReadRes.byte) len s).failed = false
      ∧ (read_loop H max (stream.map ReadRes.byte) len s).password_len
          = len + min (line_length stream) (max - len)
      ∧ (∀ j, j < H.offsetof_input + len
            ∨ H.offsetof_input + len + min (line_length stream) (max - len) < j →
          (read_loop H max (stream.map ReadRes.byte) len s).s.storage_mem[j]?
            = s.storage_mem[j]?)
      ∧ (∀ j, j < min (line_length stream) (max - len) →
          (read_loop H max (stream.map ReadRes.byte) len s).s.storage_mem[
              H.offsetof_input + len + j]? = stream[j]?)
      ∧ (s.storage_mem[H.offsetof_input + len + min (line_length stream) (max - len)]?
            = some 0 →
          (read_loop H max (stream.map ReadRes.byte) len s).s.storage_mem[
              H.offsetof_input + len + min (line_length stream) (max - len)]? = some 0) := by
  intro stream
  induction stream with
  | nil => intro len s _ _; simp [read_loop, line_length]
  | cons b t ih =>
    intro len s hlen hmem
    by_cases h : len < max
    · by_cases hb : b = 10
      · subst hb
        have hin : H.offsetof_input + len < s.storage_mem.length := by omega
        simp only [List.map_cons, read_loop, h, if_true, line_length_cons_eq, Nat.zero_min,
          Nat.add_zero]
        refine ⟨trivial, trivial, ?_, ?_, ?_⟩
        · intro j hj
          have hne : H.offsetof_input + len ≠ j := by omega
          simp [List.getElem?_set_ne hne]
        · intro j hj; omega
        · intro _
          simp [List.getElem?_set, hin]
      · have hk := line_length_cons_ne b t hb
        have hL : min (line_length (b :: t)) (max - len)
            = min (line_length t) (max - (len + 1)) + 1 := by rw [hk]; omega
        have hin : H.offsetof_input + len < s.storage_mem.length := by omega
        simp only [List.map_cons, read_loop, h, hb, if_true, if_false]
        obtain ⟨i1, i2, i3, i4, i5⟩ := ih (len + 1)
          { s with
            storage_mem := s.storage_mem.set (H.offsetof_input + len) b
            need_flush := true } (by omega) (by simpa using hmem)
        simp only at i3 i4 i5
        refine ⟨i1, ?_, ?_, ?_, ?_⟩
        · rw [i2, hL]; omega
        · intro j hj
          rw [i3 j (by omega)]
          have hne : H.offsetof_input + len ≠ j := by omega
          simp [List.getElem?_set_ne hne]
        · intro j hj
          cases j with
          | zero =>
            rw [i3 _ (by omega)]
            simp [List.getElem?_set, hin]
          | succ j =>
            have := i4 j (by omega)
            rw [show H.offsetof_input + len + (j + 1) = H.offsetof_input + (len + 1) + j by omega]
            simpa using this
        · intro h0
          rw [hL] at h0 ⊢
          rw [show H.offsetof_input + len + (min (line_length t) (max - (len + 1)) + 1)
              = H.offsetof_input + (len + 1) + min (line_length t) (max - (len + 1)) by omega]
            at h0 ⊢
          apply i5
          have hne : H.offsetof_input + len
              ≠ H.offsetof_input + (len + 1) + min (line_length t) (max - (len + 1)) := by omega
          rw [List.getElem?_set_ne hne]
          exact h0
    · have hz : max - len = 0 := by omega
      simp only [List.map_cons, read_loop, h, if_false, hz, Nat.min_zero, Nat.add_zero]
      refine ⟨trivial, trivial, fun _ _ => trivial, ?_, fun h0 => h0⟩
      intro j hj; omega

/-- C5: for every error-free input byte stream and every state in which the
passphrase buffer (capacity `C = CRYPT_MAX_PASSPHRASE_SIZE > 0`, inside the
mapped region) holds only zero bytes, READ-INPUT does not fail and yields
`password_len = L = min(k, C - 1)`, where `k` is the number of stream bytes
before the first line terminator (or before the end of the stream);
`password[0 .. L)` equals the first `L` stream bytes, `password[L]` is zero,
and every byte of the region outside `password[0 .. L]`, in particular at
buffer index `C` and beyond, keeps the value it had. -/
theorem read_input_length_content_bounds (H : Headers) (stream : List Nat) (s : State)
    (hC : 0 < H.CRYPT_MAX_PASSPHRASE_SIZE)
    (hlay : H.offsetof_input + H.CRYPT_MAX_PASSPHRASE_SIZE ≤ s.storage_mem.length)
    (hz : ∀ j, j < H.CRYPT_MAX_PASSPHRASE_SIZE →
      s.storage_mem[H.offsetof_input + j]? = some 0) :
    (read_input H (stream.map ReadRes.byte) s).failed = false
    ∧ (read_input H (stream.map ReadRes.byte) s).password_len
        = min (line_length stream) (H.CRYPT_MAX_PASSPHRASE_SIZE - 1)
    ∧ passphrase H (read_input H (stream.map ReadRes.byte) s).s
          (min (line_length stream) (H.CRYPT_MAX_PASSPHRASE_SIZE - 1))
        = stream.take (min (line_length stream) (H.CRYPT_MAX_PASSPHRASE_SIZE - 1))
    ∧ (read_input H (stream.map ReadRes.byte) s).s.storage_mem[
          H.offsetof_input + min (line_length stream) (H.CRYPT_MAX_PASSPHRASE_SIZE - 1)]?
        = some 0
    ∧ (∀ j, j < H.offsetof_input
          ∨ H.offsetof_input + min (line_length stream) (H.CRYPT_MAX_PASSPHRASE_SIZE - 1) < j →
        (read_input H (stream.map ReadRes.byte) s).s.storage_mem[j]? = s.storage_mem[j]?)
    ∧ (∀ j, H.offsetof_input + H.CRYPT_MAX_PASSPHRASE_SIZE ≤ j →
        (read_input H (stream.map ReadRes.byte) s).s.storage_mem[j]? = s.storage_mem[j]?) := by
  obtain ⟨p1, p2, p3, p4, p5⟩ :=
    read_loop_bytes H (H.CRYPT_MAX_PASSPHRASE_SIZE - 1) stream 0
      (s.emit (Event.read_input s.storage_mem)) (Nat.zero_le _)
      (by simp only [State.emit]; omega)
  simp only [Nat.add_zero, Nat.sub_zero, State.emit] at p2 p3 p4 p5
  simp only [Nat.zero_add] at p2
  have hfr : ∀ j, j < H.offsetof_input
      ∨ H.offsetof_input + min (line_length stream) (H.CRYPT_MAX_PASSPHRASE_SIZE - 1) < j →
      (read_input H (stream.map ReadRes.byte) s).s.storage_mem[j]? = s.storage_mem[j]? :=
    fun j hj => p3 j hj
  refine ⟨p1, p2, ?_, ?_, hfr, fun j hj => hfr j (Or.inr (by omega))⟩
  · apply List.ext_getElem?
    intro j
    unfold passphrase
    rw [List.getElem?_take, List.getElem?_take, List.getElem?_drop]
    by_cases hj : j < min (line_length stream) (H.CRYPT_MAX_PASSPHRASE_SIZE - 1)
    · simp only [hj, if_true]
      exact p4 j hj
    · simp only [hj, if_false]
  · exact p5 (hz _ (by omega))

/-- On the tiny layout (capacity 4): a line of two bytes, and a line cut at three. -/
theorem read_input_length_content_bounds_witness :
    (read_input tiny ([104, 105, 10, 120].map ReadRes.byte) batch_state).password_len = 2
    ∧ passphrase tiny (read_input tiny ([104, 105, 10, 120].map ReadRes.byte) batch_state).s 2
        = [104, 105]
    ∧ (read_input tiny ([1, 2, 3, 4, 5, 6].map ReadRes.byte) batch_state).password_len = 3 := by
  have h1 := read_input_length_content_bounds tiny [104, 105, 10, 120] batch_state
    (by decide) (by decide) (by decide)
  have h2 := read_input_length_content_bounds tiny [1, 2, 3, 4, 5, 6] batch_state
    (by decide) (by decide) (by decide)
  exact ⟨h1.2.1, h1.2.2.1, h2.2.1⟩

/-! ## Scrub and release, exact effect -/

theorem clear_sensitive_memory_ok (s : State)
    (hs : s.storage_ptr.usable s.storage_live = true)
    (he : s.entropy_ptr.usable s.entropy_live = true) :
    clear_sensitive_memory s
      = Res.ok { s with
          entropy_mem := scrubbed s.entropy_ptr s.entropy_mem s.entropy_len
          storage_mem := scrubbed s.storage_ptr s.storage_mem s.storage_len
          trace := s.trace ++ clear_events s.entropy_ptr s.entropy_len
            ++ clear_events s.storage_ptr s.storage_len } := by
  rcases s with ⟨oc, ut, fd, nf, sp, ep, sl, el, tm, st, sm, em, slv, elv, pid, tr⟩
  cases ep <;> cases sp <;> cases slv <;> cases elv <;>
    simp [clear_sensitive_memory, clear_events, scrubbed, State.emit, Ptr.usable] at hs he ⊢

theorem clear_sensitive_memory_segv (s : State)
    (h : s.storage_ptr.usable s.storage_live = false
      ∨ s.entropy_ptr.usable s.entropy_live = false) :
    ∃ s1, clear_sensitive_memory s = Res.segv s1 := by
  rcases s with ⟨oc, ut, fd, nf, sp, ep, sl, el, tm, st, sm, em, slv, elv, pid, tr⟩
  cases ep <;> cases sp <;> cases slv <;> cases elv <;>
    simp [clear_sensitive_memory, State.emit, Ptr.usable] at h ⊢

theorem free_sensitive_memory_eq (s : State)
    (hs : s.storage_ptr.usable s.storage_live = true)
    (he : s.entropy_ptr.usable s.entropy_live = true) :
    free_sensitive_memory s
      = Res.ok { s with
          entropy_mem := scrubbed s.entropy_ptr s.entropy_mem s.entropy_len
          storage_mem := scrubbed s.storage_ptr s.storage_mem s.storage_len
          storage_live := released s.storage_ptr s.storage_live
          entropy_live := released s.entropy_ptr s.entropy_live
          trace := s.trace ++ release_events s.entropy_ptr s.entropy_len
            ++ release_events s.storage_ptr s.storage_len } := by
  rcases s with ⟨oc, ut, fd, nf, sp, ep, sl, el, tm, st, sm, em, slv, elv, pid, tr⟩
  cases ep <;> cases sp <;> cases slv <;> cases elv <;>
    simp [free_sensitive_memory, release_events, scrubbed, released, State.emit,
      Ptr.usable] at hs he ⊢

theorem usable_cases (p : Ptr) (live : Bool) :
    p.usable live = true ∨ p.usable live = false := by
  cases p.usable live <;> simp

/-- When REFILL-ENTROPY and PROMPT hand over to READ-INPUT, each pointer is
`NULL` or the address of a mapping that exists, the entropy read succeeded, and
the state is the scrubbed one with fresh entropy and the prompt applied. -/
theorem refill_and_prompt_go (H : Headers) (env : Env) (tty_file : Stream) (iter : Nat)
    (s s3 : State) (h : refill_and_prompt H env tty_file iter s = Refill.go s3) :
    s.storage_ptr.usable s.storage_live = true ∧ s.entropy_ptr.usable s.entropy_live = true
    ∧ ∃ rnd, env.urandom iter = some rnd
      ∧ s3 = prompt H tty_file
          { s with
            entropy_mem := overwrite (scrubbed s.entropy_ptr s.entropy_mem s.entropy_len)
              (rnd.take s.entropy_len)
            storage_mem := scrubbed s.storage_ptr s.storage_mem s.storage_len
            trace := s.trace ++ clear_events s.entropy_ptr s.entropy_len
              ++ clear_events s.storage_ptr s.storage_len } := by
  rcases usable_cases s.storage_ptr s.storage_live with hs | hs
  · rcases usable_cases s.entropy_ptr s.entropy_live with he | he
    · refine ⟨hs, he, ?_⟩
      rw [refill_and_prompt, clear_sensitive_memory_ok s hs he] at h
      cases hu : env.urandom iter with
      | none => simp [hu] at h
      | some rnd =>
        simp only [hu, Refill.go.injEq] at h
        exact ⟨rnd, rfl, h.symm⟩
    · obtain ⟨s1, h1⟩ := clear_sensitive_memory_segv s (Or.inr he)
      simp [refill_and_prompt, h1] at h
  · obtain ⟨s1, h1⟩ := clear_sensitive_memory_segv s (Or.inl hs)
    simp [refill_and_prompt, h1] at h

/-- READ-INPUT changes only the passphrase bytes and `need_flush`, and appends
one ghost event. -/
theorem read_input_shape (H : Headers) (inp : List ReadRes) (s : State) :
    (read_input H inp s).s
      = { s with
          storage_mem := (read_input H inp s).s.storage_mem
          need_flush := (read_input H inp s).s.need_flush
          trace := s.trace ++ [Event.read_input s.storage_mem] }
    ∧ (read_input H inp s).s.storage_mem.length = s.storage_mem.length
    ∧ (read_input H inp s).rest.length + (read_input H inp s).password_len ≤ inp.length := by
  obtain ⟨h1, h2, h3, h4, h5, h6, h7, h8, h9, h10, h11, h12, h13, -, h15, h16, h17⟩ :=
    read_loop_frame H (H.CRYPT_MAX_PASSPHRASE_SIZE - 1) inp 0
      (s.emit (Event.read_input s.storage_mem))
  refine ⟨?_, h13, by simpa using h15⟩
  unfold read_input
  generalize read_loop H (H.CRYPT_MAX_PASSPHRASE_SIZE - 1) inp 0
      (s.emit (Event.read_input s.storage_mem)) = r at *
  rcases r with ⟨f, l, rest, rs⟩
  cases rs
  simp only [State.emit] at *
  simp [*]

/-! ## One pass of the loop -/

theorem prompt_eq (H : Headers) (tty_file : Stream) (s : State) :
    prompt H tty_file s
      = { s with
          term_mode :=
            if s.use_tty = true ∧ ¬ (s.tty_fd = 0 ∧ s.stdin_is_tty = false)
            then echo_off_config H s.old_config else s.term_mode
          trace := s.trace ++ prompt_events H tty_file s } := by
  rcases s with ⟨oc, ut, fd, nf, sp, ep, sl, el, tm, st, sm, em, slv, elv, pid, tr⟩
  cases ut <;> by_cases h : fd = 0 ∧ st = false <;>
    simp [prompt, prompt_events, force_tty_echo_off, tcsetattr, State.emit, h]

theorem restore_tty_eq (s : State) :
    restore_tty s
      = { s with
          term_mode :=
            if s.tty_fd = 0 ∧ s.stdin_is_tty = false then s.term_mode else s.old_config
          trace := s.trace ++ restore_events s } := by
  rcases s with ⟨oc, ut, fd, nf, sp, ep, sl, el, tm, st, sm, em, slv, elv, pid, tr⟩
  cases nf <;> simp [restore_tty, restore_events, tcsetattr, State.emit]

theorem echo_restored_eq (s : State) :
    echo_restored s
      = { s with
          term_mode :=
            if s.use_tty = true ∧ ¬ (s.tty_fd = 0 ∧ s.stdin_is_tty = false)
            then s.old_config else s.term_mode
          trace := s.trace ++ echo_restored_events s } := by
  unfold echo_restored echo_restored_events
  rw [restore_tty_eq]
  rcases s with ⟨oc, ut, fd, nf, sp, ep, sl, el, tm, st, sm, em, slv, elv, pid, tr⟩
  cases ut <;> by_cases h : fd = 0 ∧ st = false <;> simp [h]

theorem first_control_of_mem (p : List Nat) (b : Nat) (hb : b ∈ p) (hlt : b < 0x20) :
    ∃ ch, first_control p = some ch ∧ ch < 0x20 := by
  unfold first_control
  cases hf : p.find? (fun ch => decide (ch < 0x20)) with
  | none =>
    rw [List.find?_eq_none] at hf
    have := hf b hb
    simp at this
    omega
  | some ch =>
    have := List.find?_some hf
    exact ⟨ch, rfl, by simpa using this⟩

/-- C4: in every pass of the loop that reaches READ-INPUT, if READ-INPUT
succeeds and the passphrase it yields contains a byte below `0x20`, the pass
ends in `continue`: what it added to the trace contains no call of
`crypt_gensalt_rn` or `crypt_rn` and no `fputs("Hash: ", stdout)`, its last
event is the diagnostic on standard error naming a byte below `0x20`, and the
loop goes on with the next pass on the remaining input. -/
theorem control_character_rejected (H : Headers) (env : Env) (pfx : Option String)
    (count : Nat) (tty_file : Stream) (iter : Nat) (inp : List ReadRes) (s s3 : State)
    (hgo : refill_and_prompt H env tty_file iter s = Refill.go s3)
    (hok : (read_input H inp s3).failed = false)
    (b : Nat)
    (hb : b ∈ passphrase H (read_input H inp s3).s (read_input H inp s3).password_len)
    (hlt : b < 0x20) :
    ∃ s1 evs ch,
      iteration H env pfx count tty_file iter inp s
        = Step.continue_ s1 (read_input H inp s3).rest
      ∧ s1.trace = s.trace ++ evs
          ++ [Event.fprintf Stream.stderr "error: control character 0x%02x in password\n" [ch]]
      ∧ ch < 0x20
      ∧ (∀ e ∈ evs, e.is_provider_call = false)
      ∧ Event.fputs (bytes "Hash: ") Stream.stdout ∉ evs
      ∧ (∀ fuel, session H env pfx count tty_file (fuel + 1) iter inp s
          = session H env pfx count tty_file fuel (iter + 1) (read_input H inp s3).rest s1) := by
  obtain ⟨-, -, rnd, -, hs3⟩ := refill_and_prompt_go H env tty_file iter s s3 hgo
  obtain ⟨hshape, -, -⟩ := read_input_shape H inp s3
  have hmem : (echo_restored (read_input H inp s3).s).storage_mem
      = (read_input H inp s3).s.storage_mem := by rw [echo_restored_eq]
  have hp : (read_input H inp s3).password_len ≠ 0 := by
    intro h0
    rw [h0] at hb
    simp [passphrase] at hb
  obtain ⟨ch, hch, hchlt⟩ := first_control_of_mem _ b hb hlt
  have hch' : first_control (passphrase H (echo_restored (read_input H inp s3).s)
      (read_input H inp s3).password_len) = some ch := by
    unfold passphrase at hch ⊢
    rw [hmem]
    exact hch
  have hit : iteration H env pfx count tty_file iter inp s
      = Step.continue_
          ((echo_restored (read_input H inp s3).s).emit
            (Event.fprintf Stream.stderr "error: control character 0x%02x in password\n" [ch]))
          (read_input H inp s3).rest := by
    simp [iteration, hgo, after_read, hok, hp, validate_and_hash, hch']
  refine ⟨_, clear_events s.entropy_ptr s.entropy_len
      ++ clear_events s.storage_ptr s.storage_len
      ++ prompt_events H tty_file s
      ++ [Event.read_input s3.storage_mem]
      ++ echo_restored_events (read_input H inp s3).s, ch, hit, ?_, hchlt, ?_, ?_, ?_⟩
  · rw [echo_restored_eq, hshape, hs3, prompt_eq]
    simp [State.emit, prompt_events]
  · intro e he
    simp only [List.mem_append, List.mem_singleton] at he
    rcases he with (((he | he) | he) | he) | he
    · unfold clear_events at he; split at he <;> simp at he; subst he; rfl
    · unfold clear_events at he; split at he <;> simp at he; subst he; rfl
    · unfold prompt_events at he; split at he <;> simp at he
      rcases he with he | he | he <;> subst he <;> rfl
    · subst he; rfl
    · unfold echo_restored_events restore_events at he
      split at he <;> simp at he
      rcases he with he | ⟨-, he⟩ <;> subst he <;> rfl
  · intro he
    simp only [List.mem_append, List.mem_singleton] at he
    rcases he with (((he | he) | he) | he) | he
    · unfold clear_events at he; split at he <;> simp at he
    · unfold clear_events at he; split at he <;> simp at he
    · unfold prompt_events at he; split at he <;> simp at he
      exact absurd he.1 (by decide)
    · simp at he
    · unfold echo_restored_events restore_events at he
      split at he <;> simp at he
  · intro fuel
    simp [session, hit]

/-- On the tiny layout: the line `a \x01` is rejected and the pass continues. -/
theorem control_character_rejected_witness :
    ∃ s1 ch,
      iteration tiny (demo_env false []) (some "$2b$") 0 Stream.stdout 0
          [ReadRes.byte 97, ReadRes.byte 1, ReadRes.byte 10, ReadRes.byte 98] batch_state
        = Step.continue_ s1 [ReadRes.byte 98]
      ∧ s1.trace.getLast?
          = some (Event.fprintf Stream.stderr
              "error: control character 0x%02x in password\n" [ch]) := by
  obtain ⟨s1, evs, ch, h1, h2, -⟩ :=
    control_character_rejected tiny (demo_env false []) (some "$2b$") 0 Stream.stdout 0
      [ReadRes.byte 97, ReadRes.byte 1, ReadRes.byte 10, ReadRes.byte 98]
      batch_state batch_ready rfl rfl 1 (by decide) (by decide)
  exact ⟨s1, ch, h1, by rw [h2]; simp⟩

theorem finish_eq (tty_file : Stream) (s : State)
    (hs : s.storage_ptr.usable s.storage_live = true)
    (he : s.entropy_ptr.usable s.entropy_live = true) :
    finish tty_file s
      = Run.mk (Outcome.exit 0)
          { s with
            entropy_mem := scrubbed s.entropy_ptr s.entropy_mem s.entropy_len
            storage_mem := scrubbed s.storage_ptr s.storage_mem s.storage_len
            storage_live := released s.storage_ptr s.storage_live
            entropy_live := released s.entropy_ptr s.entropy_live
            trace := s.trace ++ finish_events tty_file s } := by
  unfold finish
  have h := free_sensitive_memory_eq (if s.use_tty then s.emit (Event.fclose tty_file) else s)
    (by split <;> simpa [State.emit] using hs) (by split <;> simpa [State.emit] using he)
  simp only [h]
  rcases s with ⟨oc, ut, fd, nf, sp, ep, sl, el, tm, st, sm, em, slv, elv, pid, tr⟩
  cases ut <;> simp [State.emit, finish_events]

/-- C6: in every pass of the loop that reaches READ-INPUT, if READ-INPUT
succeeds with `password_len = 0`, the pass executes `break`, the session
returns with exit code 0, the whole pass contains no call of `crypt_gensalt_rn`
or `crypt_rn`, and what follows READ-INPUT in the trace (echo restore, close of
the terminal stream, scrub and release, close of the entropy source) contains
no `fputs`, hence no prompt. -/
theorem empty_passphrase_ends_session (H : Headers) (env : Env) (pfx : Option String)
    (count : Nat) (tty_file : Stream) (iter : Nat) (inp : List ReadRes) (s s3 : State)
    (hgo : refill_and_prompt H env tty_file iter s = Refill.go s3)
    (hok : (read_input H inp s3).failed = false)
    (h0 : (read_input H inp s3).password_len = 0) :
    ∃ r evs post,
      iteration H env pfx count tty_file iter inp s
        = Step.break_ (echo_restored (read_input H inp s3).s) (read_input H inp s3).rest
      ∧ (∀ fuel, session H env pfx count tty_file (fuel + 1) iter inp s = some r)
      ∧ r.outcome = Outcome.exit 0
      ∧ (read_input H inp s3).s.trace = s.trace ++ evs
      ∧ r.final.trace = s.trace ++ evs ++ post
      ∧ (∀ e ∈ evs ++ post, e.is_provider_call = false)
      ∧ (∀ e ∈ post, e.is_fputs = false) := by
  obtain ⟨hs, he, rnd, -, hs3⟩ := refill_and_prompt_go H env tty_file iter s s3 hgo
  obtain ⟨hshape, -, -⟩ := read_input_shape H inp s3
  have hit : iteration H env pfx count tty_file iter inp s
      = Step.break_ (echo_restored (read_input H inp s3).s) (read_input H inp s3).rest := by
    simp [iteration, hgo, after_read, hok, h0]
  have hsp : (echo_restored (read_input H inp s3).s).storage_ptr = s.storage_ptr := by
    rw [echo_restored_eq, hshape, hs3, prompt_eq]
  have hep : (echo_restored (read_input H inp s3).s).entropy_ptr = s.entropy_ptr := by
    rw [echo_restored_eq, hshape, hs3, prompt_eq]
  have hslv : (echo_restored (read_input H inp s3).s).storage_live = s.storage_live := by
    rw [echo_restored_eq, hshape, hs3, prompt_eq]
  have helv : (echo_restored (read_input H inp s3).s).entropy_live = s.entropy_live := by
    rw [echo_restored_eq, hshape, hs3, prompt_eq]
  have hfin := finish_eq tty_file (echo_restored (read_input H inp s3).s)
    (by rw [hsp, hslv]; exact hs) (by rw [hep, helv]; exact he)
  refine ⟨finish tty_file (echo_restored (read_input H inp s3).s),
    clear_events s.entropy_ptr s.entropy_len ++ clear_events s.storage_ptr s.storage_len
      ++ prompt_events H tty_file s ++ [Event.read_input s3.storage_mem],
    echo_restored_events (read_input H inp s3).s
      ++ finish_events tty_file (echo_restored (read_input H inp s3).s),
    hit, ?_, ?_, ?_, ?_, ?_, ?_⟩
  · intro fuel; simp [session, hit]
  · rw [hfin]
  · rw [hshape, hs3, prompt_eq]
    simp [prompt_events]
  · rw [hfin]
    simp only
    rw [echo_restored_eq]
    simp only
    rw [hshape, hs3, prompt_eq]
    simp [prompt_events, echo_restored_events]
  · intro e he
    simp only [List.mem_append, List.mem_singleton] at he
    rcases he with (((he | he) | he) | he) | (he | he)
    · unfold clear_events at he; split at he <;> simp at he; subst he; rfl
    · unfold clear_events at he; split at he <;> simp at he; subst he; rfl
    · unfold prompt_events at he; split at he <;> simp at he
      rcases he with he | he | he <;> subst he <;> rfl
    · subst he; rfl
    · unfold echo_restored_events restore_events at he
      split at he <;> simp at he
      rcases he with he | ⟨-, he⟩ <;> subst he <;> rfl
    · unfold finish_events release_events at he
      simp only [List.mem_append, List.mem_singleton] at he
      rcases he with ((he | he) | he) | he
      · split at he <;> simp at he; subst he; rfl
      · split at he <;> simp at he; rcases he with he | he <;> subst he <;> rfl
      · split at he <;> simp at he; rcases he with he | he <;> subst he <;> rfl
      · subst he; rfl
  · intro e he
    simp only [List.mem_append] at he
    rcases he with he | he
    · unfold echo_restored_events restore_events at he
      split at he <;> simp at he
      rcases he with he | ⟨-, he⟩ <;> subst he <;> rfl
    · unfold finish_events release_events at he
      simp only [List.mem_append, List.mem_singleton] at he
      rcases he with ((he | he) | he) | he
      · split at he <;> simp at he; subst he; rfl
      · split at he <;> simp at he; rcases he with he | he <;> subst he <;> rfl
      · split at he <;> simp at he; rcases he with he | he <;> subst he <;> rfl
      · subst he; rfl

/-- On the tiny layout: an immediate line terminator ends the session with code 0. -/
theorem empty_passphrase_ends_session_witness :
    ∃ r, session tiny (demo_env false []) (some "$2b$") 0 Stream.stdout 1 0
          [ReadRes.byte 10, ReadRes.byte 98] batch_state = some r
      ∧ r.outcome = Outcome.exit 0 := by
  obtain ⟨r, evs, post, -, h2, h3, -⟩ :=
    empty_passphrase_ends_session tiny (demo_env false []) (some "$2b$") 0 Stream.stdout 0
      [ReadRes.byte 10, ReadRes.byte 98] batch_state batch_ready rfl rfl rfl
  exact ⟨r, h2 0, h3⟩

/-! ## The session as a whole -/

theorem free_and_exit_eq (s : State)
    (hs : s.storage_ptr.usable s.storage_live = true)
    (he : s.entropy_ptr.usable s.entropy_live = true) :
    free_and_exit s
      = Step.exit 1
          { s with
            entropy_mem := scrubbed s.entropy_ptr s.entropy_mem s.entropy_len
            storage_mem := scrubbed s.storage_ptr s.storage_mem s.storage_len
            storage_live := released s.storage_ptr s.storage_live
            entropy_live := released s.entropy_ptr s.entropy_live
            trace := s.trace ++ release_events s.entropy_ptr s.entropy_len
              ++ release_events s.storage_ptr s.storage_len } := by
  unfold free_and_exit
  rw [free_sensitive_memory_eq s hs he]

theorem free_and_exit_ne_continue (s s1 : State) (rest : List ReadRes) :
    free_and_exit s ≠ Step.continue_ s1 rest := by
  unfold free_and_exit
  cases free_sensitive_memory s <;> simp

theorem hash_and_emit_rest (H : Headers) (env : Env) (pfx : Option String) (count iter : Nat)
    (rest rest1 : List ReadRes) (s s1 : State)
    (h : hash_and_emit H env pfx count iter rest s = Step.continue_ s1 rest1) :
    rest1 = rest := by
  unfold hash_and_emit at h
  simp only at h
  split at h
  · exact absurd h (free_and_exit_ne_continue _ _ _)
  · split at h
    · exact absurd h (free_and_exit_ne_continue _ _ _)
    · simp only [Step.continue_.injEq] at h
      exact h.2.symm

theorem iteration_continue_rest (H : Headers) (env : Env) (pfx : Option String)
    (count : Nat) (tty_file : Stream) (iter : Nat) (inp rest : List ReadRes) (s s1 : State)
    (h : iteration H env pfx count tty_file iter inp s = Step.continue_ s1 rest) :
    rest.length < inp.length := by
  unfold iteration at h
  cases hr : refill_and_prompt H env tty_file iter s with
  | stop st =>
    rw [hr] at h
    simp only at h
    subst h
    unfold refill_and_prompt at hr
    split at hr
    · simp at hr
    · split at hr
      · simp only [Refill.stop.injEq] at hr
        exact absurd hr (free_and_exit_ne_continue _ _ _)
      · simp at hr
  | go s3 =>
    rw [hr] at h
    simp only at h
    obtain ⟨-, -, hlen⟩ := read_input_shape H inp s3
    unfold after_read at h
    split at h
    · exact absurd h (free_and_exit_ne_continue _ _ _)
    · split at h
      · simp at h
      · rename_i hp
        unfold validate_and_hash at h
        split at h
        · simp only [Step.continue_.injEq] at h
          rw [← h.2]
          omega
        · have := hash_and_emit_rest _ _ _ _ _ _ _ _ _ h
          rw [this]
          omega

/-- The pass bound `fuel` is never reached when it exceeds the number of
pending read results: the session returns. -/
theorem session_terminates (H : Headers) (env : Env) (pfx : Option String)
    (count : Nat) (tty_file : Stream) :
    ∀ (fuel iter : Nat) (inp : List ReadRes) (s : State), inp.length < fuel →
      ∃ r, session H env pfx count tty_file fuel iter inp s = some r := by
  intro fuel
  induction fuel with
  | zero => intro iter inp s h; omega
  | succ n ih =>
    intro iter inp s h
    unfold session
    cases hit : iteration H env pfx count tty_file iter inp s with
    | segv s1 => exact ⟨_, rfl⟩
    | exit c s1 => exact ⟨_, rfl⟩
    | break_ s1 rest => exact ⟨_, rfl⟩
    | continue_ s1 rest =>
      have := iteration_continue_rest H env pfx count tty_file iter inp rest s s1 hit
      exact ih (iter + 1) rest s1 (by omega)

/-- Invariant rule for the session loop. -/
theorem session_invariant (H : Headers) (env : Env) (pfx : Option String)
    (count : Nat) (tty_file : Stream) (Inv : State → Prop) (Q : Run → Prop)
    (hsegv : ∀ iter inp s s1, Inv s →
      iteration H env pfx count tty_file iter inp s = Step.segv s1 →
      Q (Run.mk Outcome.segv s1))
    (hexit : ∀ iter inp s c s1, Inv s →
      iteration H env pfx count tty_file iter inp s = Step.exit c s1 →
      Q (Run.mk (Outcome.exit c) s1))
    (hbreak : ∀ iter inp s s1 rest, Inv s →
      iteration H env pfx count tty_file iter inp s = Step.break_ s1 rest →
      Q (finish tty_file s1))
    (hcont : ∀ iter inp s s1 rest, Inv s →
      iteration H env pfx count tty_file iter inp s = Step.continue_ s1 rest → Inv s1) :
    ∀ (fuel iter : Nat) (inp : List ReadRes) (s : State) (r : Run), Inv s →
      session H env pfx count tty_file fuel iter inp s = some r → Q r := by
  intro fuel
  induction fuel with
  | zero => intro iter inp s r _ h; simp [session] at h
  | succ n ih =>
    intro iter inp s r hinv h
    unfold session at h
    cases hit : iteration H env pfx count tty_file iter inp s with
    | segv s1 =>
      rw [hit] at h; simp only [Option.some.injEq] at h; subst h
      exact hsegv iter inp s s1 hinv hit
    | exit c s1 =>
      rw [hit] at h; simp only [Option.some.injEq] at h; subst h
      exact hexit iter inp s c s1 hinv hit
    | break_ s1 rest =>
      rw [hit] at h; simp only [Option.some.injEq] at h; subst h
      exact hbreak iter inp s s1 rest hinv hit
    | continue_ s1 rest =>
      rw [hit] at h; simp only at h
      exact ih (iter + 1) rest s1 r (hcont iter inp s s1 rest hinv hit) h

/-! ## Trace extension -/

theorem render_append (a b : List (Option (List Nat))) :
    render (a ++ b) = render a ++ render b := by
  induction a with
  | nil => rfl
  | cons x t ih =>
    cases x with
    | none => simp [render, ih]
    | some h => simp [render, ih]

theorem Frame.frame_refl (s : State) : Frame s s := by simp [Frame]

theorem Frame.frame_trans {s s1 s2 : State} (h1 : Frame s s1) (h2 : Frame s1 s2) : Frame s s2 := by
  obtain ⟨a1, a2, a3, a4, a5, a6, a7, a8, a9, a10, a11⟩ := h1
  obtain ⟨b1, b2, b3, b4, b5, b6, b7, b8, b9, b10, b11⟩ := h2
  exact ⟨b1.trans a1, b2.trans a2, b3.trans a3, b4.trans a4, b5.trans a5, b6.trans a6,
    b7.trans a7, b8.trans a8, b9.trans a9, b10.trans a10, b11.trans a11⟩

theorem Ext.ext_refl (env : Env) (s : State) : Ext env s s :=
  ⟨Frame.frame_refl s, [], by simp, by simp,
    fun _ => ⟨[], rfl, by simp [from_provider]⟩⟩

theorem Ext.ext_trans {env : Env} {s s1 s2 : State} (h1 : Ext env s s1) (h2 : Ext env s1 s2) :
    Ext env s s2 := by
  obtain ⟨f1, e1, t1, z1, o1⟩ := h1
  obtain ⟨f2, e2, t2, z2, o2⟩ := h2
  refine ⟨f1.frame_trans f2, e1 ++ e2, by rw [t2, t1, List.append_assoc], ?_, ?_⟩
  · intro m hm
    rcases List.mem_append.mp hm with hm | hm
    · exact z1 m hm
    · exact ⟨(z2 m hm).1, (z2 m hm).2.trans f1.2.2.2.2.2.2.2.2.2.1⟩
  · intro hfd
    obtain ⟨i1, r1, p1⟩ := o1 hfd
    obtain ⟨i2, r2, p2⟩ := o2 (by rw [f1.2.2.1]; exact hfd)
    refine ⟨i1 ++ i2, ?_, ?_⟩
    · rw [render_append, ← r1, ← r2]
      simp [stdout_events]
    · intro h hh
      rcases List.mem_append.mp hh with hh | hh
      · exact p1 h hh
      · exact p2 h hh

/-- Introduction rule: a state that differs from `s` only in memory content,
liveness of the mappings, `need_flush`, terminal mode and a longer trace
continues `s`. -/
theorem Ext.intro (env : Env) (s : State) (nf : Bool) (tm : Termios) (sm em : List Nat)
    (slv elv : Bool)
    (evs : List Event) (items : List (Option (List Nat)))
    (hsm : sm.length = s.storage_mem.length) (hem : em.length = s.entropy_mem.length)
    (hz : ∀ m, Event.read_input m ∈ evs → all_zero m ∧ m.length = s.storage_mem.length)
    (ho : stdout_events evs = render items) (hp : from_provider env items) :
    Ext env s
      { s with
        need_flush := nf, term_mode := tm, storage_mem := sm, entropy_mem := em
        storage_live := slv, entropy_live := elv
        trace := s.trace ++ evs } :=
  ⟨⟨rfl, rfl, rfl, rfl, rfl, rfl, rfl, rfl, rfl, hsm, hem⟩, evs, rfl, hz,
    fun _ => ⟨items, ho, hp⟩⟩

/-- Appending one event that neither is a READ-INPUT observation nor writes to
standard output. -/
theorem Ext.emit (env : Env) (s : State) (e : Event)
    (h1 : ∀ m, e ≠ Event.read_input m) (h2 : e.writes_stdout = false) :
    Ext env s (s.emit e) := by
  refine ⟨Frame.frame_refl s, [e], rfl, ?_, fun _ => ⟨[], ?_, by simp [from_provider]⟩⟩
  · intro m hm
    simp only [List.mem_singleton] at hm
    exact absurd hm.symm (h1 m)
  · simp [stdout_events, h2, render]

theorem from_provider_nil (env : Env) : from_provider env [] := by simp [from_provider]

theorem from_provider_none (env : Env) : from_provider env [none] := by simp [from_provider]

theorem clear_sensitive_memory_ext (env : Env) (s : State) :
    Ext env s (clear_sensitive_memory s).state := by
  rcases s with ⟨oc, ut, fd, nf, sp, ep, sl, el, tm, st, sm, em, slv, elv, pid, tr⟩
  cases ep <;> cases sp <;> cases slv <;> cases elv <;>
    simp only [clear_sensitive_memory, State.emit, Res.state, List.append_assoc, if_true,
      if_false, Bool.false_eq_true]
  all_goals first
    | exact Ext.ext_refl env _
    | (refine Ext.intro env _ nf tm _ _ _ _ _ [] ?_ ?_ ?_ ?_ (from_provider_nil env) <;>
        first | rfl | exact length_zero_fill _ _ | simp [stdout_events, render])

theorem free_sensitive_memory_ext (env : Env) (s : State) :
    Ext env s (free_sensitive_memory s).state := by
  rcases s with ⟨oc, ut, fd, nf, sp, ep, sl, el, tm, st, sm, em, slv, elv, pid, tr⟩
  cases ep <;> cases sp <;> cases slv <;> cases elv <;>
    simp only [free_sensitive_memory, State.emit, Res.state, List.append_assoc, if_true,
      if_false, Bool.false_eq_true]
  all_goals first
    | exact Ext.ext_refl env _
    | (refine Ext.intro env _ nf tm _ _ _ _ _ [] ?_ ?_ ?_ ?_ (from_provider_nil env) <;>
        first | rfl | exact length_zero_fill _ _ | simp [stdout_events, render])

theorem prompt_ext (env : Env) (H : Headers) (tty_file : Stream) (s : State)
    (ht : s.use_tty = true → tty_file = Stream.tty s.tty_fd) :
    Ext env s (prompt H tty_file s) := by
  rw [prompt_eq]
  refine ⟨⟨rfl, rfl, rfl, rfl, rfl, rfl, rfl, rfl, rfl, rfl, rfl⟩,
    prompt_events H tty_file s, rfl, ?_, fun hfd => ⟨[], ?_, from_provider_nil env⟩⟩
  · intro m hm
    unfold prompt_events at hm
    split at hm <;> simp at hm
  · unfold prompt_events
    split
    · rename_i hu
      rw [ht hu]
      simp [stdout_events, render, Event.writes_stdout, hfd]
    · simp [stdout_events, render]

theorem restore_tty_ext (env : Env) (s : State) : Ext env s (restore_tty s) := by
  rw [restore_tty_eq]
  by_cases hf : s.need_flush = true
  · refine Ext.intro env s s.need_flush _ s.storage_mem s.entropy_mem s.storage_live
      s.entropy_live _ [none] rfl rfl ?_ ?_ (from_provider_none env)
    · intro m hm
      simp [restore_events, hf] at hm
    · simp [restore_events, hf, stdout_events, render, Event.writes_stdout]
  · refine Ext.intro env s s.need_flush _ s.storage_mem s.entropy_mem s.storage_live
      s.entropy_live _ [] rfl rfl ?_ ?_ (from_provider_nil env)
    · intro m hm
      simp [restore_events, hf] at hm
    · simp [restore_events, hf, stdout_events, render, Event.writes_stdout]

theorem echo_restored_ext (env : Env) (s : State) : Ext env s (echo_restored s) := by
  unfold echo_restored
  split
  · exact restore_tty_ext env s
  · exact Ext.ext_refl env s

theorem read_input_ext (env : Env) (H : Headers) (inp : List ReadRes) (s : State)
    (hz : all_zero s.storage_mem) :
    Ext env s (read_input H inp s).s := by
  obtain ⟨hshape, hlen, -⟩ := read_input_shape H inp s
  rw [hshape]
  refine Ext.intro env s _ s.term_mode _ s.entropy_mem s.storage_live s.entropy_live _ []
    hlen rfl ?_ ?_ (from_provider_nil env)
  · intro m hm
    simp only [List.mem_singleton, Event.read_input.injEq] at hm
    rw [hm]
    exact ⟨hz, rfl⟩
  · simp [stdout_events, render, Event.writes_stdout]

theorem free_and_exit_ext (env : Env) (s : State) : Ext env s (free_and_exit s).state := by
  have := free_sensitive_memory_ext env s
  unfold free_and_exit
  cases h : free_sensitive_memory s <;> simpa [h, Res.state, Step.state] using this

theorem Ext.store (env : Env) (s : State) (mem : List Nat) : Ext env s (s.store mem) := by
  have := Ext.intro env s s.need_flush s.term_mode (overwrite s.storage_mem mem) s.entropy_mem
    s.storage_live s.entropy_live [] [] (length_overwrite _ _) rfl (by simp) (by simp [stdout_events, render])
    (from_provider_nil env)
  simpa [State.store] using this

theorem Ext.poke (env : Env) (s : State) (i b : Nat) : Ext env s (s.poke i b) := by
  have := Ext.intro env s s.need_flush s.term_mode (s.storage_mem.set i b) s.entropy_mem
    s.storage_live s.entropy_live [] [] (by simp) rfl (by simp) (by simp [stdout_events, render]) (from_provider_nil env)
  simpa [State.poke] using this

theorem Ext.emit_hash_line (env : Env) (s : State) (hash : List Nat)
    (hp : ∃ p salt m, (env.crypt_rn p salt m).1 = some hash) :
    Ext env s
      ((((s.emit (Event.fputs (bytes "Hash: ") Stream.stdout)).emit
        (Event.fputs hash Stream.stdout)).emit
        (Event.fputs [10] Stream.stdout)).emit (Event.fflush Stream.stdout)) := by
  have := Ext.intro env s s.need_flush s.term_mode s.storage_mem s.entropy_mem
    s.storage_live s.entropy_live
    [Event.fputs (bytes "Hash: ") Stream.stdout, Event.fputs hash Stream.stdout,
     Event.fputs [10] Stream.stdout, Event.fflush Stream.stdout]
    [some hash] rfl rfl (by simp)
    (by simp [stdout_events, render, hash_line, Event.writes_stdout])
    (by
      intro h hh
      simp only [List.mem_singleton, Option.some.injEq] at hh
      subst hh
      exact hp)
  simpa [State.emit] using this

theorem hash_and_emit_ext (env : Env) (H : Headers) (pfx : Option String)
    (count iter : Nat) (rest : List ReadRes) (s : State) :
    Ext env s (hash_and_emit H env pfx count iter rest s).state := by
  have hg : Ext env s
      ((s.emit (Event.crypt_gensalt_rn pfx count)).store
        (env.crypt_gensalt_rn pfx count iter s.storage_mem).2) :=
    (Ext.emit env s _ (by simp) (by rfl)).ext_trans (Ext.store env _ _)
  unfold hash_and_emit
  simp only
  split
  · refine hg.ext_trans ?_
    refine Ext.ext_trans ?_ (free_and_exit_ext env _)
    refine Ext.ext_trans ?_ (Ext.emit env _ _ (by simp) (by rfl))
    refine Ext.ext_trans ?_ (Ext.emit env _ _ (by simp) (by rfl))
    refine Ext.ext_trans ?_ (Ext.poke env _ _ _)
    exact Ext.emit env _ _ (by simp) (by rfl)
  · rename_i salt hsalt
    refine hg.ext_trans ?_
    split
    · refine Ext.ext_trans ?_ (free_and_exit_ext env _)
      refine Ext.ext_trans ?_ (Ext.emit env _ _ (by simp) (by rfl))
      refine Ext.ext_trans ?_ (Ext.emit env _ _ (by simp) (by rfl))
      refine Ext.ext_trans ?_ (Ext.poke env _ _ _)
      refine Ext.ext_trans ?_ (Ext.emit env _ _ (by simp) (by rfl))
      exact (Ext.emit env _ _ (by simp) (by rfl)).ext_trans (Ext.store env _ _)
    · rename_i hash hhash
      refine Ext.ext_trans ?_ (Ext.emit_hash_line env _ hash ⟨_, _, _, hhash⟩)
      exact (Ext.emit env _ _ (by simp) (by rfl)).ext_trans (Ext.store env _ _)

theorem validate_and_hash_ext (env : Env) (H : Headers) (pfx : Option String)
    (count iter password_len : Nat) (rest : List ReadRes) (s : State) :
    Ext env s (validate_and_hash H env pfx count iter password_len rest s).state := by
  unfold validate_and_hash
  split
  · exact Ext.emit env _ _ (by simp) (by rfl)
  · exact hash_and_emit_ext env H pfx count iter rest s

theorem after_read_ext (env : Env) (H : Headers) (pfx : Option String)
    (count iter : Nat) (r : ReadOut) :
    Ext env r.s (after_read H env pfx count iter r).state := by
  unfold after_read
  split
  · refine Ext.ext_trans ?_ (free_and_exit_ext env _)
    exact (Ext.emit env _ _ (by simp) (by rfl)).ext_trans (restore_tty_ext env _)
  · split
    · exact echo_restored_ext env _
    · exact (echo_restored_ext env _).ext_trans (validate_and_hash_ext env H pfx count iter _ _ _)

theorem Pre.pre_of_frame {tty_file : Stream} {s s1 : State} (hp : Pre tty_file s)
    (hf : Frame s s1) : Pre tty_file s1 := by
  obtain ⟨p1, p2, p3⟩ := hp
  obtain ⟨-, f2, f3, f4, -, f6, -, -, -, f10, -⟩ := hf
  exact ⟨fun h => by rw [f3]; exact p1 (f2 ▸ h), by rw [f4]; exact p2,
    by rw [f10, f6]; exact p3⟩

theorem scrubbed_all_zero (p : Ptr) (mem : List Nat) (len : Nat)
    (hp : p ≠ Ptr.null) (hl : mem.length ≤ len) : all_zero (scrubbed p mem len) := by
  have : scrubbed p mem len = zero_fill mem len := by
    cases p <;> simp [scrubbed] at hp ⊢
  rw [this, zero_fill_full mem len hl]
  intro b hb
  exact List.eq_of_mem_replicate hb

theorem refill_and_prompt_ext (env : Env) (H : Headers) (tty_file : Stream) (iter : Nat)
    (s : State) (hp : Pre tty_file s) :
    match refill_and_prompt H env tty_file iter s with
    | Refill.stop st => Ext env s st.state
    | Refill.go s3 => Ext env s s3 ∧ all_zero s3.storage_mem := by
  have hc := clear_sensitive_memory_ext env s
  unfold refill_and_prompt
  cases hcl : clear_sensitive_memory s with
  | segv s1 =>
    rw [hcl] at hc
    exact hc
  | ok s1 =>
    rw [hcl] at hc
    simp only [Res.state] at hc
    simp only
    cases hu : env.urandom iter with
    | none =>
      simp only
      exact hc.ext_trans ((Ext.emit env _ _ (by simp) (by rfl)).ext_trans (free_and_exit_ext env _))
    | some rnd =>
      simp only
      have hs : s.storage_ptr.usable s.storage_live = true
          ∧ s.entropy_ptr.usable s.entropy_live = true := by
        rcases usable_cases s.storage_ptr s.storage_live with h1 | h1
        · rcases usable_cases s.entropy_ptr s.entropy_live with h2 | h2
          · exact ⟨h1, h2⟩
          · obtain ⟨s2, h3⟩ := clear_sensitive_memory_segv s (Or.inr h2)
            rw [h3] at hcl
            simp at hcl
        · obtain ⟨s2, h3⟩ := clear_sensitive_memory_segv s (Or.inl h1)
          rw [h3] at hcl
          simp at hcl
      have heq := clear_sensitive_memory_ok s hs.1 hs.2
      rw [hcl] at heq
      simp only [Res.ok.injEq] at heq
      have hz : all_zero s1.storage_mem := by
        rw [heq]
        exact scrubbed_all_zero _ _ _ hp.2.1 hp.2.2
      have he1 : Ext env s1
          { s1 with entropy_mem := overwrite s1.entropy_mem (rnd.take s1.entropy_len) } := by
        have := Ext.intro env s1 s1.need_flush s1.term_mode s1.storage_mem
          (overwrite s1.entropy_mem (rnd.take s1.entropy_len)) s1.storage_live s1.entropy_live
          [] [] rfl (length_overwrite _ _)
          (by simp) (by simp [stdout_events, render]) (from_provider_nil env)
        simpa using this
      have hpre1 : Pre tty_file
          { s1 with entropy_mem := overwrite s1.entropy_mem (rnd.take s1.entropy_len) } :=
        hp.pre_of_frame (hc.ext_trans he1).1
      refine ⟨hc.ext_trans (he1.ext_trans (prompt_ext env H tty_file _ hpre1.1)), ?_⟩
      rw [prompt_eq]
      exact hz

theorem iteration_ext (env : Env) (H : Headers) (pfx : Option String) (count : Nat)
    (tty_file : Stream) (iter : Nat) (inp : List ReadRes) (s : State) (hp : Pre tty_file s) :
    Ext env s (iteration H env pfx count tty_file iter inp s).state := by
  have hr := refill_and_prompt_ext env H tty_file iter s hp
  unfold iteration
  cases hrf : refill_and_prompt H env tty_file iter s with
  | stop st =>
    rw [hrf] at hr
    exact hr
  | go s3 =>
    rw [hrf] at hr
    simp only at hr ⊢
    exact hr.1.ext_trans ((read_input_ext env H inp s3 hr.2).ext_trans
      (after_read_ext env H pfx count iter _))

theorem finish_ext (env : Env) (tty_file : Stream) (s : State) :
    Ext env s (finish tty_file s).final := by
  have h1 : Ext env s (if s.use_tty then s.emit (Event.fclose tty_file) else s) := by
    split
    · exact Ext.emit env _ _ (by simp) (by rfl)
    · exact Ext.ext_refl env s
  have h2 := free_sensitive_memory_ext env
    (if s.use_tty then s.emit (Event.fclose tty_file) else s)
  unfold finish
  simp only
  cases hf : free_sensitive_memory (if s.use_tty then s.emit (Event.fclose tty_file) else s) with
  | segv s2 =>
    rw [hf] at h2
    exact h1.ext_trans h2
  | ok s2 =>
    rw [hf] at h2
    exact h1.ext_trans (h2.ext_trans (Ext.emit env _ _ (by simp) (by rfl)))

/-- Every run of the session loop continues the state it started from. -/
theorem session_ext (env : Env) (H : Headers) (pfx : Option String) (count : Nat)
    (tty_file : Stream) (s0 : State) (hp : Pre tty_file s0) (fuel iter : Nat)
    (inp : List ReadRes) (r : Run)
    (h : session H env pfx count tty_file fuel iter inp s0 = some r) :
    Ext env s0 r.final := by
  refine session_invariant H env pfx count tty_file
    (fun s => Pre tty_file s ∧ Ext env s0 s) (fun r => Ext env s0 r.final)
    ?_ ?_ ?_ ?_ fuel iter inp s0 r ⟨hp, Ext.ext_refl env s0⟩ h
  · intro iter inp s s1 hinv hit
    have := iteration_ext env H pfx count tty_file iter inp s hinv.1
    rw [hit] at this
    exact hinv.2.ext_trans this
  · intro iter inp s c s1 hinv hit
    have := iteration_ext env H pfx count tty_file iter inp s hinv.1
    rw [hit] at this
    exact hinv.2.ext_trans this
  · intro iter inp s s1 rest hinv hit
    have := iteration_ext env H pfx count tty_file iter inp s hinv.1
    rw [hit] at this
    exact hinv.2.ext_trans (this.ext_trans (finish_ext env tty_file s1))
  · intro iter inp s s1 rest hinv hit
    have := iteration_ext env H pfx count tty_file iter inp s hinv.1
    rw [hit] at this
    exact ⟨hinv.1.pre_of_frame this.1, hinv.2.ext_trans this⟩

/-! ## Startup -/

theorem parse_args_done (H : Headers) (env : Env) (argv : List String) (s st : State)
    (o : Outcome) (h : parse_args H env argv s = Args.done o st) :
    ∃ evs, st = { s with trace := s.trace ++ evs }
      ∧ (∀ m, Event.read_input m ∉ evs)
      ∧ (stdout_events evs = []
          ∨ argv.get? 1 = some "-h" ∨ argv.get? 1 = some "--help") := by
  unfold parse_args at h
  split at h
  · simp only [Args.done.injEq] at h
    exact ⟨[_], h.2.symm, by simp, Or.inl (by simp [stdout_events, Event.writes_stdout])⟩
  · simp only at h
    cases h1 : argv.get? 1 with
    | none =>
      simp only [h1, strcmp_eq, Args.done.injEq] at h
      exact ⟨[], by simp [h.2.symm], by simp, Or.inl rfl⟩
    | some a =>
      by_cases ha : a = ""
      · simp only [h1, ha, strcmp_eq, Args.done.injEq, ne_eq, not_true_eq_false,
          if_false] at h
        exact ⟨[], by simp [h.2.symm], by simp, Or.inl rfl⟩
      · simp only [h1, ha, strcmp_eq, ne_eq, not_false_eq_true, if_true] at h
        by_cases hh : a = "-h"
        · exact ⟨[Event.fputs (bytes USAGE) Stream.stdout], by
            simp only [hh, beq_self_eq_true, Args.done.injEq] at h
            exact h.2.symm, by simp, Or.inr (Or.inl (by rw [hh]))⟩
        · have hb : (a == "-h") = false := by simpa using hh
          simp only [hb] at h
          by_cases hh2 : a = "--help"
          · exact ⟨[Event.fputs (bytes USAGE) Stream.stdout], by
              simp only [hh2, beq_self_eq_true, Args.done.injEq] at h
              exact h.2.symm, by simp, Or.inr (Or.inr (by rw [hh2]))⟩
          · have hb2 : (a == "--help") = false := by simpa using hh2
            simp only [hb2] at h
            split at h
            · simp at h
            · split at h
              · split at h
                · simp only [Args.done.injEq] at h
                  exact ⟨[_], h.2.symm, by simp,
                    Or.inl (by simp [stdout_events, Event.writes_stdout])⟩
                · simp at h
              · simp at h

theorem setup_tty_failed (env : Env) (s st : State) (h : setup_tty env s = Setup.failed st) :
    st.storage_ptr = s.storage_ptr ∧ st.entropy_ptr = s.entropy_ptr
    ∧ ∃ msg, st.trace = s.trace ++ [Event.perror msg] := by
  unfold setup_tty at h
  split at h
  · split at h
    · simp only [Setup.failed.injEq] at h
      subst h
      exact ⟨rfl, rfl, _, rfl⟩
    · split at h
      · split at h
        · simp at h
        · simp only [Setup.failed.injEq] at h
          subst h
          exact ⟨rfl, rfl, _, rfl⟩
      · simp only [Setup.failed.injEq] at h
        subst h
        exact ⟨rfl, rfl, _, rfl⟩
  · simp at h

theorem setup_tty_ready (env : Env) (tty_file : Stream) (st : State)
    (h : setup_tty env (initial env) = Setup.ready tty_file st) :
    (env.isatty = false ∧ tty_file = Stream.stdout ∧ st = initial env)
    ∨ (env.isatty = true
        ∧ ∃ fd, env.open_tty = some fd ∧ tty_file = Stream.tty fd
            ∧ st = { initial env with
                     tty_fd := fd, old_config := env.term0, use_tty := true }) := by
  unfold setup_tty at h
  split at h
  · rename_i hi
    split at h
    · simp at h
    · rename_i fd hfd
      split at h
      · split at h
        · simp only [Setup.ready.injEq] at h
          exact Or.inr ⟨hi, fd, hfd, h.1.symm, h.2.symm⟩
        · simp at h
      · simp at h
  · rename_i hi
    simp only [Setup.ready.injEq] at h
    exact Or.inl ⟨by simpa using hi, h.1.symm, h.2.symm⟩

theorem acquire_failed (H : Headers) (env : Env) (s st : State)
    (h : acquire H env s = Acquire.failed st) :
    st.storage_ptr = s.storage_ptr ∧ st.entropy_ptr = s.entropy_ptr
    ∧ ∃ msg, st.trace = s.trace ++ [Event.perror msg] := by
  unfold acquire at h
  split at h
  · simp only [Acquire.failed.injEq] at h
    subst h
    exact ⟨rfl, rfl, _, rfl⟩
  · have hne : mmap_result env.mmap_storage ≠ Ptr.null := by
      cases env.mmap_storage <;> simp [mmap_result]
    simp only [hne, if_false] at h
    exact Acquire.noConfusion h

theorem acquire_ready (H : Headers) (env : Env) (s st : State)
    (h : acquire H env s = Acquire.ready st) :
    st = { s with
           storage_len := H.sizeof_crypt_data
           storage_ptr := mmap_result env.mmap_storage
           storage_mem := List.replicate H.sizeof_crypt_data 0
           entropy_len := 1024
           entropy_ptr := mmap_result env.mmap_entropy
           entropy_mem := List.replicate 1024 0
           storage_live := env.mmap_storage.isSome
           entropy_live := env.mmap_entropy.isSome } := by
  unfold acquire at h
  split at h
  · simp at h
  · have hne : mmap_result env.mmap_storage ≠ Ptr.null := by
      cases env.mmap_storage <;> simp [mmap_result]
    simp only [hne, if_false, Acquire.ready.injEq] at h
    exact h.symm

/-- The function `main` returns: the pass bound is never reached. -/
theorem main_returns (H : Headers) (env : Env) (argv : List String) :
    ∃ r, main H env argv = some r := by
  unfold main
  cases parse_args H env argv (initial env) with
  | done o s => exact ⟨_, rfl⟩
  | run pfx count =>
    simp only
    cases setup_tty env (initial env) with
    | failed s => exact ⟨_, rfl⟩
    | ready tty_file s =>
      simp only
      cases acquire H env s with
      | failed s1 => exact ⟨_, rfl⟩
      | ready s1 =>
        exact session_terminates H env pfx count tty_file _ 0 env.input s1 (Nat.lt_succ_self _)

theorem main_start_pre (H : Headers) (env : Env) (tty_file : Stream) (s s1 : State)
    (hs : setup_tty env (initial env) = Setup.ready tty_file s)
    (ha : acquire H env s = Acquire.ready s1) :
    Pre tty_file s1 ∧ s1.trace = [] ∧ s1.storage_mem.length = H.sizeof_crypt_data
    ∧ ((env.isatty = true → env.open_tty ≠ some 1) → s1.tty_fd ≠ 1) := by
  have h1 := acquire_ready H env s s1 ha
  have hne : mmap_result env.mmap_storage ≠ Ptr.null := by
    cases env.mmap_storage <;> simp [mmap_result]
  rcases setup_tty_ready env tty_file s hs with ⟨-, -, h2⟩ | ⟨hi, fd, hfd, ht, h2⟩
  · subst h2
    subst h1
    exact ⟨⟨by simp [initial], hne, by simp⟩, rfl, List.length_replicate _ _,
      fun _ => by simp [initial]⟩
  · subst h2
    subst h1
    refine ⟨⟨fun _ => ht, hne, by simp⟩, rfl, List.length_replicate _ _, fun h => ?_⟩
    intro h1
    have : fd = 1 := h1
    exact h hi (by rw [hfd, this])

/-- What every run of `main` leaves in its trace. -/
theorem main_trace (H : Headers) (env : Env) (argv : List String) (r : Run)
    (h : main H env argv = some r) :
    (∀ m, Event.read_input m ∈ r.final.trace → m = List.replicate H.sizeof_crypt_data 0)
    ∧ ((env.isatty = true → env.open_tty ≠ some 1) →
        (argv.get? 1 = some "-h" ∨ argv.get? 1 = some "--help")
        ∨ ∃ items, stdout_events r.final.trace = render items ∧ from_provider env items) := by
  unfold main at h
  cases hpa : parse_args H env argv (initial env) with
  | done o s =>
    rw [hpa] at h
    simp only [Option.some.injEq] at h
    subst h
    obtain ⟨evs, h1, h2, h3⟩ := parse_args_done H env argv _ _ _ hpa
    have htr : s.trace = evs := by rw [h1]; simp [initial]
    simp only [htr]
    refine ⟨fun m hm => absurd hm (h2 m), fun _ => ?_⟩
    rcases h3 with h3 | h3
    · exact Or.inr ⟨[], by rw [h3]; rfl, from_provider_nil env⟩
    · exact Or.inl h3
  | run pfx count =>
    rw [hpa] at h
    simp only at h
    cases hst : setup_tty env (initial env) with
    | failed s =>
      rw [hst] at h
      simp only [Option.some.injEq] at h
      subst h
      obtain ⟨-, -, msg, h1⟩ := setup_tty_failed env _ _ hst
      have htr : s.trace = [Event.perror msg] := by rw [h1]; simp [initial]
      simp only [htr]
      exact ⟨by simp, fun _ => Or.inr ⟨[],
        by simp [stdout_events, render, Event.writes_stdout], from_provider_nil env⟩⟩
    | ready tty_file s =>
      rw [hst] at h
      simp only at h
      cases hac : acquire H env s with
      | failed s1 =>
        rw [hac] at h
        simp only [Option.some.injEq] at h
        subst h
        obtain ⟨-, -, msg, h1⟩ := acquire_failed H env _ _ hac
        have hs0 : s.trace = [] := by
          rcases setup_tty_ready env tty_file s hst with ⟨-, -, h2⟩ | ⟨-, fd, -, -, h2⟩ <;>
            rw [h2] <;> rfl
        have htr : s1.trace = [Event.perror msg] := by rw [h1, hs0]; rfl
        simp only [htr]
        exact ⟨by simp, fun _ => Or.inr ⟨[],
          by simp [stdout_events, render, Event.writes_stdout], from_provider_nil env⟩⟩
      | ready s1 =>
        rw [hac] at h
        simp only at h
        obtain ⟨hpre, htr, hlen, hfd⟩ := main_start_pre H env tty_file s s1 hst hac
        obtain ⟨-, evs, h1, h2, h3⟩ :=
          session_ext env H pfx count tty_file s1 hpre _ _ _ r h
        rw [htr, List.nil_append] at h1
        rw [h1]
        refine ⟨fun m hm => ?_, fun h0 => Or.inr (h3 (hfd h0))⟩
        rw [List.eq_replicate_iff]
        exact ⟨(h2 m hm).2.trans hlen, (h2 m hm).1⟩

/-- C3: every run of `main` returns, and at every start of READ-INPUT in it
(first pass, pass after a hash, pass after a rejected passphrase) the
`crypt_data` region, which holds the passphrase buffer, consists of
`sizeof(struct crypt_data)` zero bytes. -/
theorem read_input_starts_on_zeroed_storage (H : Headers) (env : Env) (argv : List String) :
    ∃ r, main H env argv = some r
      ∧ ∀ m, Event.read_input m ∈ r.final.trace → m = List.replicate H.sizeof_crypt_data 0 := by
  obtain ⟨r, hr⟩ := main_returns H env argv
  exact ⟨r, hr, (main_trace H env argv r hr).1⟩

/-- An interactive run with three passes (hash, rejection, empty line): three READ-INPUT starts, each on twelve zero bytes. -/
theorem read_input_starts_on_zeroed_storage_witness :
    ∃ r, main tiny
          (demo_env true [ReadRes.byte 104, ReadRes.byte 105, ReadRes.byte 10,
            ReadRes.byte 1, ReadRes.byte 10])
          ["crypt", "$2b$"] = some r
      ∧ (r.final.trace.filter
            (fun e => match e with
              | Event.read_input _ => true
              | _ => false)).length = 3
      ∧ ∀ m, Event.read_input m ∈ r.final.trace → m = List.replicate 12 0 := by
  obtain ⟨r, h1, h2⟩ := read_input_starts_on_zeroed_storage tiny
    (demo_env true [ReadRes.byte 104, ReadRes.byte 105, ReadRes.byte 10,
      ReadRes.byte 1, ReadRes.byte 10]) ["crypt", "$2b$"]
  refine ⟨r, h1, ?_, h2⟩
  have h3 : main tiny
      (demo_env true [ReadRes.byte 104, ReadRes.byte 105, ReadRes.byte 10,
        ReadRes.byte 1, ReadRes.byte 10]) ["crypt", "$2b$"] = some r := h1
  rw [show main tiny
      (demo_env true [ReadRes.byte 104, ReadRes.byte 105, ReadRes.byte 10,
        ReadRes.byte 1, ReadRes.byte 10]) ["crypt", "$2b$"] = some _ from rfl] at h3
  simp only [Option.some.injEq] at h3
  rw [← h3]
  decide

/-! ## Standard output -/

/-- C10, as stated, fails: in an interactive session where the operator presses
Enter at the first prompt, nothing is hashed, the provider is never called, and
yet `restore_tty` writes a newline to file descriptor 1; the output on standard
output is not a sequence of hash lines. -/
theorem stdout_newline_without_hash :
    ∃ r, main tiny (demo_env true [ReadRes.byte 10]) ["crypt", "$2b$"] = some r
      ∧ r.outcome = Outcome.exit 0
      ∧ stdout_events r.final.trace = [Event.write 1 [10]]
      ∧ (∀ e ∈ r.final.trace, e.is_provider_call = false)
      ∧ ¬ ∃ hs : List (List Nat), stdout_events r.final.trace = render (hs.map some) := by
  refine ⟨_, rfl, by decide, by decide, by decide, ?_⟩
  rintro ⟨hs, h⟩
  rw [show stdout_events _ = [Event.write 1 [10]] from by decide] at h
  cases hs with
  | nil => simp [render] at h
  | cons a t => simp [render, hash_line] at h

/-- C10, amended: in every run of `main` in which help is not requested and
the terminal, when there is one, is not opened as file descriptor 1, the events
that put bytes on file descriptor 1 form a sequence in which each item is
either a complete hash line (`fputs` of `Hash: `, of a hash that `crypt_rn`
returned, and of a newline) or the single newline that `restore_tty` writes
with `write(1, "\n", 1)`. -/
theorem stdout_is_hash_lines_and_newlines (H : Headers) (env : Env) (argv : List String)
    (h1 : argv.get? 1 ≠ some "-h") (h2 : argv.get? 1 ≠ some "--help")
    (h0 : env.isatty = true → env.open_tty ≠ some 1) :
    ∃ r items, main H env argv = some r
      ∧ stdout_events r.final.trace = render items
      ∧ from_provider env items := by
  obtain ⟨r, hr⟩ := main_returns H env argv
  rcases (main_trace H env argv r hr).2 h0 with hh | ⟨items, h3, h4⟩
  · rcases hh with hh | hh
    · exact absurd hh h1
    · exact absurd hh h2
  · exact ⟨r, items, hr, h3, h4⟩

/-- The prompt on file descriptor 1: when descriptor 1 is closed at startup and
`open("/dev/tty")` returns 1, `fputs("Password: ", tty_file)` puts the prompt
on descriptor 1, so the restriction on the terminal descriptor above is
needed. -/
theorem prompt_on_descriptor_one :
    ∃ r, main tiny { demo_env true [ReadRes.byte 10] with open_tty := some 1 }
          ["crypt", "$2b$"] = some r
      ∧ stdout_events r.final.trace
          = [Event.fputs (bytes "Password: ") (Stream.tty 1), Event.write 1 [10]] :=
  ⟨_, rfl, by decide⟩

/-- An interactive run that hashes `hi`: a newline, the hash line, a newline. -/
theorem stdout_is_hash_lines_and_newlines_witness :
    ∃ r items,
      main tiny (demo_env true [ReadRes.byte 104, ReadRes.byte 105, ReadRes.byte 10])
          ["crypt", "$2b$"] = some r
      ∧ stdout_events r.final.trace = render items
      ∧ stdout_events r.final.trace
          = [Event.write 1 [10], Event.fputs (bytes "Hash: ") Stream.stdout,
             Event.fputs [36, 104, 105] Stream.stdout, Event.fputs [10] Stream.stdout,
             Event.write 1 [10]] := by
  obtain ⟨r, items, h1, h2, -⟩ := stdout_is_hash_lines_and_newlines tiny
    (demo_env true [ReadRes.byte 104, ReadRes.byte 105, ReadRes.byte 10]) ["crypt", "$2b$"]
    (by decide) (by decide) (by decide)
  refine ⟨r, items, h1, h2, ?_⟩
  have h3 := h1
  rw [show main tiny (demo_env true [ReadRes.byte 104, ReadRes.byte 105, ReadRes.byte 10])
      ["crypt", "$2b$"] = some _ from rfl] at h3
  simp only [Option.some.injEq] at h3
  rw [← h3]
  decide

/-! ## Defects -/

/-- C9 fails on the code: with no prefix argument, or an empty one, `prefix`
stays `NULL` and line 111 passes it to `strcmp`; the run ends in a fault before
anything else happens. -/
theorem absent_prefix_faults :
    main libxcrypt (demo_env true [ReadRes.byte 104, ReadRes.byte 10]) ["crypt"]
        = some (Run.mk Outcome.segv
            (initial (demo_env true [ReadRes.byte 104, ReadRes.byte 10])))
    ∧ main libxcrypt (demo_env true [ReadRes.byte 104, ReadRes.byte 10]) ["crypt", ""]
        = some (Run.mk Outcome.segv
            (initial (demo_env true [ReadRes.byte 104, ReadRes.byte 10])))
    ∧ main libxcrypt (demo_env false [ReadRes.byte 104, ReadRes.byte 10]) ["crypt", "", "12"]
        = some (Run.mk Outcome.segv
            (initial (demo_env false [ReadRes.byte 104, ReadRes.byte 10]))) :=
  ⟨rfl, rfl, rfl⟩

/-- C8 fails on the code: when the second `mmap` fails (returns `MAP_FAILED`)
the test on line 177 looks at `storage_ptr` again and compares with `NULL`;
the run enters the loop, calls `explicit_bzero` on the failed pointer and ends
in a fault, not in `exit(1)`.  When the first `mmap` fails, the test on line
169 compares `MAP_FAILED` with `NULL` and the run ends the same way. -/
theorem failed_mmap_not_detected :
    (∃ r, main tiny
            { demo_env false [ReadRes.byte 104, ReadRes.byte 10] with mmap_entropy := none }
            ["crypt", "$2b$"] = some r
        ∧ r.outcome = Outcome.segv
        ∧ r.final.trace = [Event.explicit_bzero Ptr.map_failed 1024])
    ∧ (∃ r, main tiny
            { demo_env false [ReadRes.byte 104, ReadRes.byte 10] with mmap_storage := none }
            ["crypt", "$2b$"] = some r
        ∧ r.outcome = Outcome.segv
        ∧ r.final.trace
            = [Event.explicit_bzero (Ptr.mapped 8192) 1024,
               Event.explicit_bzero Ptr.map_failed 12]) :=
  ⟨⟨_, rfl, rfl, rfl⟩, ⟨_, rfl, rfl, rfl⟩⟩

/-! ## Cleanup on every exit path -/

theorem Acquired.acq_of_frame {H : Headers} {m0 : Termios} {tty_file : Stream} {a b : Nat}
    {s s1 : State} (hg : Acquired H m0 tty_file a b s) (hf : Frame s s1) :
    Acquired H m0 tty_file a b s1 := by
  obtain ⟨g1, g2, g3, g4, g5, g6, g7, g8, g9⟩ := hg
  obtain ⟨f1, f2, f3, f4, f5, f6, f7, f8, f9, f10, f11⟩ := hf
  refine ⟨f4.trans g1, f5.trans g2, f6.trans g3, f7.trans g4, f10.trans g5, f11.trans g6,
    fun h => ?_, fun h => ?_, fun h => ?_⟩
  · rw [f3]; exact g7 (f2 ▸ h)
  · rw [f8, f1]; exact g8 (f2 ▸ h)
  · rw [f3, f8]; exact g9 (f2 ▸ h)

theorem Acquired.pre {H : Headers} {m0 : Termios} {tty_file : Stream} {a b : Nat}
    {s : State} (hg : Acquired H m0 tty_file a b s) : Pre tty_file s := by
  obtain ⟨g1, -, g3, -, g5, -, g7, -, -⟩ := hg
  exact ⟨g7, by rw [g1]; simp, by rw [g5, g3]⟩

theorem Acquired.usable {H : Headers} {m0 : Termios} {tty_file : Stream} {a b : Nat}
    {s : State} (hg : Acquired H m0 tty_file a b s)
    (hl : s.storage_live = true ∧ s.entropy_live = true) :
    s.storage_ptr.usable s.storage_live = true ∧ s.entropy_ptr.usable s.entropy_live = true := by
  rw [hg.1, hg.2.1, hl.1, hl.2]
  exact ⟨rfl, rfl⟩

theorem free_and_exit_clean (H : Headers) (m0 : Termios) (tty_file : Stream) (a b : Nat)
    (s : State) (hg : Acquired H m0 tty_file a b s)
    (hl : s.storage_live = true ∧ s.entropy_live = true) (ht : s.term_mode = m0) :
    (free_and_exit s).ok H m0 a b := by
  obtain ⟨hu1, hu2⟩ := hg.usable hl
  obtain ⟨g1, g2, g3, g4, g5, g6, -, -, -⟩ := hg
  rw [free_and_exit_eq s hu1 hu2]
  refine ⟨ht, ?_, ?_, ?_, ?_, s.trace, [], ?_, Or.inl rfl⟩
  · show scrubbed s.storage_ptr s.storage_mem s.storage_len = _
    rw [g1, g3]
    show zero_fill s.storage_mem H.sizeof_crypt_data = _
    rw [zero_fill_full _ _ (by omega), g5]
  · show scrubbed s.entropy_ptr s.entropy_mem s.entropy_len = _
    rw [g2, g4]
    show zero_fill s.entropy_mem 1024 = _
    rw [zero_fill_full _ _ (by omega), g6]
  · show released s.storage_ptr s.storage_live = false
    rw [g1]; rfl
  · show released s.entropy_ptr s.entropy_live = false
    rw [g2]; rfl
  · show s.trace ++ release_events s.entropy_ptr s.entropy_len
        ++ release_events s.storage_ptr s.storage_len = _
    rw [g1, g2, g3, g4]
    simp [release_events]

theorem finish_clean (H : Headers) (m0 : Termios) (tty_file : Stream) (a b : Nat)
    (s : State) (hg : Acquired H m0 tty_file a b s)
    (hl : s.storage_live = true ∧ s.entropy_live = true) (ht : s.term_mode = m0) :
    (finish tty_file s).outcome = Outcome.exit 0 ∧ Clean H m0 a b (finish tty_file s).final := by
  obtain ⟨hu1, hu2⟩ := hg.usable hl
  obtain ⟨g1, g2, g3, g4, g5, g6, -, -, -⟩ := hg
  rw [finish_eq tty_file s hu1 hu2]
  refine ⟨rfl, ht, ?_, ?_, ?_, ?_,
    s.trace ++ (if s.use_tty then [Event.fclose tty_file] else []), [Event.close_entropy],
    ?_, Or.inr rfl⟩
  · show scrubbed s.storage_ptr s.storage_mem s.storage_len = _
    rw [g1, g3]
    show zero_fill s.storage_mem H.sizeof_crypt_data = _
    rw [zero_fill_full _ _ (by omega), g5]
  · show scrubbed s.entropy_ptr s.entropy_mem s.entropy_len = _
    rw [g2, g4]
    show zero_fill s.entropy_mem 1024 = _
    rw [zero_fill_full _ _ (by omega), g6]
  · show released s.storage_ptr s.storage_live = false
    rw [g1]; rfl
  · show released s.entropy_ptr s.entropy_live = false
    rw [g2]; rfl
  · show s.trace ++ finish_events tty_file s = _
    unfold finish_events
    rw [g1, g2, g3, g4]
    simp [release_events]

theorem hash_and_emit_ok {H : Headers} {m0 : Termios} {tty_file : Stream} {a b : Nat}
    (env : Env) (pfx : Option String) (count iter : Nat) (rest : List ReadRes) (s : State)
    (hg : Acquired H m0 tty_file a b s)
    (hl : s.storage_live = true ∧ s.entropy_live = true) (ht : s.term_mode = m0) :
    (hash_and_emit H env pfx count iter rest s).ok H m0 a b := by
  have hg1 : Ext env s
      ((s.emit (Event.crypt_gensalt_rn pfx count)).store
        (env.crypt_gensalt_rn pfx count iter s.storage_mem).2) :=
    (Ext.emit env s _ (by simp) (by rfl)).ext_trans (Ext.store env _ _)
  unfold hash_and_emit
  simp only
  split
  · refine free_and_exit_clean H m0 tty_file a b _ ?_ ?_ ?_
    · refine hg.acq_of_frame ?_
      refine (hg1.ext_trans ?_).1
      refine Ext.ext_trans ?_ (Ext.emit env _ _ (by simp) (by rfl))
      refine Ext.ext_trans ?_ (Ext.emit env _ _ (by simp) (by rfl))
      refine Ext.ext_trans ?_ (Ext.poke env _ _ _)
      exact Ext.emit env _ _ (by simp) (by rfl)
    · simpa [State.emit, State.poke, State.store] using hl
    · simpa [State.emit, State.poke, State.store] using ht
  · split
    · refine free_and_exit_clean H m0 tty_file a b _ ?_ ?_ ?_
      · refine hg.acq_of_frame ?_
        refine (hg1.ext_trans ?_).1
        refine Ext.ext_trans ?_ (Ext.emit env _ _ (by simp) (by rfl))
        refine Ext.ext_trans ?_ (Ext.emit env _ _ (by simp) (by rfl))
        refine Ext.ext_trans ?_ (Ext.poke env _ _ _)
        refine Ext.ext_trans ?_ (Ext.emit env _ _ (by simp) (by rfl))
        exact (Ext.emit env _ _ (by simp) (by rfl)).ext_trans (Ext.store env _ _)
      · simpa [State.emit, State.poke, State.store] using hl
      · simpa [State.emit, State.poke, State.store] using ht
    · simpa [Step.ok, State.emit, State.poke, State.store] using ⟨ht, hl⟩

theorem validate_and_hash_ok {H : Headers} {m0 : Termios} {tty_file : Stream} {a b : Nat}
    (env : Env) (pfx : Option String) (count iter password_len : Nat) (rest : List ReadRes)
    (s : State) (hg : Acquired H m0 tty_file a b s)
    (hl : s.storage_live = true ∧ s.entropy_live = true) (ht : s.term_mode = m0) :
    (validate_and_hash H env pfx count iter password_len rest s).ok H m0 a b := by
  unfold validate_and_hash
  split
  · simpa [Step.ok, State.emit] using ⟨ht, hl⟩
  · exact hash_and_emit_ok env pfx count iter rest s hg hl ht

theorem after_read_ok {H : Headers} {m0 : Termios} {tty_file : Stream} {a b : Nat}
    (env : Env) (pfx : Option String) (count iter : Nat) (r : ReadOut)
    (hg : Acquired H m0 tty_file a b r.s)
    (hl : r.s.storage_live = true ∧ r.s.entropy_live = true)
    (ht : r.s.use_tty = false → r.s.term_mode = m0) :
    (after_read H env pfx count iter r).ok H m0 a b := by
  have g8 := hg.2.2.2.2.2.2.2.1
  have g9 := hg.2.2.2.2.2.2.2.2
  unfold after_read
  split
  · refine free_and_exit_clean H m0 tty_file a b _ (hg.acq_of_frame ?_) ?_ ?_
    · exact ((Ext.emit env _ _ (by simp) (by rfl)).ext_trans (restore_tty_ext env _)).1
    · rw [restore_tty_eq]
      simpa [State.emit] using hl
    · rw [restore_tty_eq]
      simp only [State.emit]
      cases hu : r.s.use_tty with
      | true => simp [(g8 hu).1, (g8 hu).2]
      | false => simp [(g9 hu).1, (g9 hu).2, ht hu]
  · have hm : (echo_restored r.s).term_mode = m0 := by
      rw [echo_restored_eq]
      cases hu : r.s.use_tty with
      | true => simp [(g8 hu).1, (g8 hu).2]
      | false => simp [ht hu]
    have hl2 : (echo_restored r.s).storage_live = true
        ∧ (echo_restored r.s).entropy_live = true := by
      rw [echo_restored_eq]
      exact hl
    split
    · exact ⟨hm, hl2⟩
    · exact validate_and_hash_ok env pfx count iter _ _ _
        (hg.acq_of_frame (echo_restored_ext env r.s).1) hl2 hm

theorem iteration_ok {H : Headers} {m0 : Termios} {a b : Nat}
    (env : Env) (pfx : Option String) (count : Nat) (tty_file : Stream) (iter : Nat)
    (inp : List ReadRes) (s : State)
    (hg : Acquired H m0 tty_file a b s)
    (hl : s.storage_live = true ∧ s.entropy_live = true) (ht : s.term_mode = m0) :
    (iteration H env pfx count tty_file iter inp s).ok H m0 a b := by
  obtain ⟨hsp, hep⟩ := hg.usable hl
  have hr := refill_and_prompt_ext env H tty_file iter s hg.pre
  unfold iteration
  cases hrf : refill_and_prompt H env tty_file iter s with
  | stop st =>
    simp only
    unfold refill_and_prompt at hrf
    rw [clear_sensitive_memory_ok s hsp hep] at hrf
    simp only at hrf
    cases hu : env.urandom iter with
    | some rnd => simp [hu] at hrf
    | none =>
      simp only [hu, Refill.stop.injEq] at hrf
      rw [← hrf]
      refine free_and_exit_clean H m0 tty_file a b _ (hg.acq_of_frame ?_) ?_ ?_
      · have hc := clear_sensitive_memory_ext env s
        rw [clear_sensitive_memory_ok s hsp hep] at hc
        exact (hc.ext_trans (Ext.emit env _ _ (by simp) (by rfl))).1
      · simpa [State.emit] using hl
      · simpa [State.emit] using ht
  | go s3 =>
    rw [hrf] at hr
    simp only at hr ⊢
    obtain ⟨-, -, rnd, -, hs3⟩ := refill_and_prompt_go H env tty_file iter s s3 hrf
    obtain ⟨hshape, -, -⟩ := read_input_shape H inp s3
    have hx := read_input_ext env H inp s3 hr.2
    refine after_read_ok env pfx count iter _ (hg.acq_of_frame (hr.1.ext_trans hx).1) ?_ ?_
    · rw [hshape]
      simp only
      rw [hs3, prompt_eq]
      exact hl
    · intro hu
      rw [hshape] at hu ⊢
      simp only at hu ⊢
      rw [hs3, prompt_eq] at hu ⊢
      simp only at hu ⊢
      simp [hu, ht]

theorem session_clean (H : Headers) (env : Env) (pfx : Option String) (count : Nat)
    (tty_file : Stream) (m0 : Termios) (a b : Nat) (fuel iter : Nat) (inp : List ReadRes)
    (s : State) (r : Run) (hg : Acquired H m0 tty_file a b s)
    (hl : s.storage_live = true ∧ s.entropy_live = true) (ht : s.term_mode = m0)
    (h : session H env pfx count tty_file fuel iter inp s = some r) :
    (∃ code, r.outcome = Outcome.exit code) ∧ Clean H m0 a b r.final := by
  refine session_invariant H env pfx count tty_file
    (fun s => Acquired H m0 tty_file a b s
      ∧ (s.storage_live = true ∧ s.entropy_live = true) ∧ s.term_mode = m0)
    (fun r => (∃ code, r.outcome = Outcome.exit code) ∧ Clean H m0 a b r.final)
    ?_ ?_ ?_ ?_ fuel iter inp s r ⟨hg, hl, ht⟩ h
  · intro iter inp s s1 hinv hit
    have := iteration_ok env pfx count tty_file iter inp s hinv.1 hinv.2.1 hinv.2.2
    rw [hit] at this
    exact absurd this (by simp [Step.ok])
  · intro iter inp s c s1 hinv hit
    have := iteration_ok env pfx count tty_file iter inp s hinv.1 hinv.2.1 hinv.2.2
    rw [hit] at this
    exact ⟨⟨c, rfl⟩, this⟩
  · intro iter inp s s1 rest hinv hit
    have hok := iteration_ok env pfx count tty_file iter inp s hinv.1 hinv.2.1 hinv.2.2
    have hex := iteration_ext env H pfx count tty_file iter inp s hinv.1.pre
    rw [hit] at hok hex
    have := finish_clean H m0 tty_file a b s1 (hinv.1.acq_of_frame hex.1) hok.2 hok.1
    exact ⟨⟨0, this.1⟩, this.2⟩
  · intro iter inp s s1 rest hinv hit
    have hok := iteration_ok env pfx count tty_file iter inp s hinv.1 hinv.2.1 hinv.2.2
    have hex := iteration_ext env H pfx count tty_file iter inp s hinv.1.pre
    rw [hit] at hok hex
    exact ⟨hinv.1.acq_of_frame hex.1, hok.2, hok.1⟩

theorem mmap_result_mapped (r : Option Nat) (a : Nat) (h : mmap_result r = Ptr.mapped a) :
    r = some a := by
  cases r with
  | none => simp [mmap_result] at h
  | some x => simpa [mmap_result] using h

/-- C1: every run of `main` returns, and whenever both Locked Buffers were
acquired (the final globals hold the addresses `a` and `b` of mappings) the
process ended by `exit` or `return` with a code (never by a fault), and at that
point the terminal is in the mode it had at startup, the `crypt_data` region is
zero over all `sizeof(struct crypt_data)` bytes, the entropy buffer is zero
over all 1024 bytes, both mappings have been ended by `munmap`, and the trace
ends with `explicit_bzero` + `munmap` of the entropy buffer over 1024 bytes and
of the `crypt_data` buffer over its full size, followed at most by the close of
the entropy source. -/
theorem cleanup_on_every_exit (H : Headers) (env : Env) (argv : List String) :
    ∃ r, main H env argv = some r
      ∧ ∀ a b, r.final.storage_ptr = Ptr.mapped a → r.final.entropy_ptr = Ptr.mapped b →
          (∃ code, r.outcome = Outcome.exit code) ∧ Clean H env.term0 a b r.final := by
  obtain ⟨r, hr⟩ := main_returns H env argv
  refine ⟨r, hr, ?_⟩
  intro a b hsa hsb
  have h := hr
  unfold main at h
  cases hpa : parse_args H env argv (initial env) with
  | done o s =>
    rw [hpa] at h
    simp only [Option.some.injEq] at h
    subst h
    obtain ⟨evs, h1, -⟩ := parse_args_done H env argv _ _ _ hpa
    rw [h1] at hsa
    simp [initial] at hsa
  | run pfx count =>
    rw [hpa] at h
    simp only at h
    cases hst : setup_tty env (initial env) with
    | failed s =>
      rw [hst] at h
      simp only [Option.some.injEq] at h
      subst h
      obtain ⟨h1, -, -⟩ := setup_tty_failed env _ _ hst
      simp only at hsa
      rw [h1] at hsa
      simp [initial] at hsa
    | ready tty_file s =>
      rw [hst] at h
      simp only at h
      have hs0 : s.storage_ptr = Ptr.null := by
        rcases setup_tty_ready env tty_file s hst with ⟨-, -, h2⟩ | ⟨-, fd, -, -, h2⟩ <;>
          rw [h2] <;> rfl
      cases hac : acquire H env s with
      | failed s1 =>
        rw [hac] at h
        simp only [Option.some.injEq] at h
        subst h
        obtain ⟨h1, -, -⟩ := acquire_failed H env _ _ hac
        simp only at hsa
        rw [h1, hs0] at hsa
        simp at hsa
      | ready s1 =>
        rw [hac] at h
        simp only at h
        obtain ⟨hpre, -, -, -⟩ := main_start_pre H env tty_file s s1 hst hac
        obtain ⟨hfr, -⟩ := session_ext env H pfx count tty_file s1 hpre _ _ _ r h
        obtain ⟨-, -, -, f4, f5, -⟩ := hfr
        have hs1 := acquire_ready H env s s1 hac
        have hma : env.mmap_storage = some a := by
          apply mmap_result_mapped
          rw [← hsa, f4, hs1]
        have hmb : env.mmap_entropy = some b := by
          apply mmap_result_mapped
          rw [← hsb, f5, hs1]
        have hacq : Acquired H env.term0 tty_file a b s1
            ∧ (s1.storage_live = true ∧ s1.entropy_live = true)
            ∧ s1.term_mode = env.term0 := by
          rcases setup_tty_ready env tty_file s hst with ⟨hi, htf, h2⟩ | ⟨hi, fd, hfd, htf, h2⟩
          · subst h2
            subst hs1
            refine ⟨⟨by simp [hma, mmap_result], by simp [hmb, mmap_result], rfl, rfl,
              List.length_replicate _ _, List.length_replicate _ _, by simp [initial],
              by simp [initial], ?_⟩, ⟨by simp [hma], by simp [hmb]⟩, rfl⟩
            intro _
            exact ⟨rfl, hi⟩
          · subst h2
            subst hs1
            refine ⟨⟨by simp [hma, mmap_result], by simp [hmb, mmap_result], rfl, rfl,
              List.length_replicate _ _, List.length_replicate _ _, fun _ => htf, ?_,
              by simp⟩, ⟨by simp [hma], by simp [hmb]⟩, rfl⟩
            intro _
            exact ⟨hi, rfl⟩
        exact session_clean H env pfx count tty_file env.term0 a b _ _ _ s1 r hacq.1 hacq.2.1
          hacq.2.2 h

/-- An interactive run whose second `read` fails: exit code 1 after full cleanup. -/
theorem cleanup_on_every_exit_witness :
    ∃ r, main tiny (demo_env true [ReadRes.byte 104, ReadRes.err]) ["crypt", "$2b$"] = some r
      ∧ r.outcome = Outcome.exit 1
      ∧ r.final.storage_ptr = Ptr.mapped 4096 ∧ r.final.entropy_ptr = Ptr.mapped 8192
      ∧ Clean tiny (demo_env true [ReadRes.byte 104, ReadRes.err]).term0 4096 8192 r.final := by
  obtain ⟨r, h1, h2⟩ := cleanup_on_every_exit tiny
    (demo_env true [ReadRes.byte 104, ReadRes.err]) ["crypt", "$2b$"]
  have k : (main tiny (demo_env true [ReadRes.byte 104, ReadRes.err]) ["crypt", "$2b$"]).map
      (fun x => (x.outcome, x.final.storage_ptr, x.final.entropy_ptr))
      = some (Outcome.exit 1, Ptr.mapped 4096, Ptr.mapped 8192) := by rfl
  rw [h1] at k
  simp only [Option.map_some', Option.some.injEq, Prod.mk.injEq] at k
  obtain ⟨ho, hsa, hsb⟩ := k
  exact ⟨r, h1, ho, hsa, hsb, (h2 4096 8192 hsa hsb).2⟩

end CryptTool
